import Mathlib

/-!
# Avionics: telemetry codec, altitude phase filter, event logger

A shallow embedding of `isp_pro/lib/Logger/Logger.cpp` and
`isp_pro/lib/Sensors/Sensors.cpp`.

Conventions of the embedding:
* machine integers are `Nat`/`Int` with explicit truncation (`% 65536`, `% 256`);
* `float` arithmetic of the altitude path is carried out over `ℚ`;
* a `float` that is only transported (telemetry payload) is its 32-bit pattern;
* function-local `static` variables become fields of the state, `none` until the
  first call initialises them;
* the peripherals (SD card, serial port, radio, MPU6050, BMP280) are explicit
  environment records.
-/

namespace Avionics

/-! ## Telemetry codec (`Logger::lora_send`, `Logger::lora_info`) -/

/-- Two's-complement bit pattern of an `int16_t` value. -/
def int16_bits (v : Int) : Nat := (v % 65536).toNat

/-- Signed reading of a 16-bit pattern as an `int16_t`. -/
def int16_of_bits (w : Nat) : Int :=
  if w % 65536 < 32768 then ((w % 65536 : Nat) : Int) else ((w % 65536 : Nat) : Int) - 65536

/-- Little-endian bytes of a 16-bit word. -/
def bytes16 (w : Nat) : List Nat := [w % 256, (w / 256) % 256]

/-- Little-endian bytes of a 32-bit word. -/
def bytes32 (w : Nat) : List Nat :=
  [w % 256, (w / 256) % 256, (w / 65536) % 256, (w / 16777216) % 256]

/-- The 16-bit word held in two little-endian bytes. -/
def word16 (lo hi : Nat) : Nat := lo + 256 * hi

/-- The 32-bit word held in four little-endian bytes. -/
def word32 (b0 b1 b2 b3 : Nat) : Nat := b0 + 256 * b1 + 65536 * b2 + 16777216 * b3

/-- Modelled from the spec: the union `LoraPacket` of `Logger.h` (absent from the
sources), viewed through its `Packet` member: a `uint16_t id` followed by three
`int16_t` data slots. -/
structure LoraPacket where
  id : Nat
  data0 : Int
  data1 : Int
  data2 : Int
  deriving DecidableEq, Repr

/-- Modelled from the spec: the `raw` member of the union `LoraPacket`, the bytes of
`id` followed by the bytes of the three data slots, least significant byte first. -/
def LoraPacket.raw (p : LoraPacket) : List Nat :=
  bytes16 p.id ++ bytes16 (int16_bits p.data0) ++ bytes16 (int16_bits p.data1)
    ++ bytes16 (int16_bits p.data2)

/-- Modelled from the spec: the union `LoraPacketFloat` of `Logger.h` (absent from
the sources): a `uint16_t id` followed by one `float`, kept as its 32-bit pattern. -/
structure LoraPacketFloat where
  id : Nat
  data : Nat
  deriving DecidableEq, Repr

/-- Modelled from the spec: the `raw` member of `LoraPacketFloat`, two bytes of `id`
then the four bytes of the float (the 6-byte frame of the spec). -/
def LoraPacketFloat.raw (p : LoraPacketFloat) : List Nat :=
  bytes16 p.id ++ bytes32 p.data

/-- Modelled from the spec: the constant `LORA_PACKET_SIZE` of the configuration
header (absent from the sources); the three-value frame is transmitted with a
declared length of 8 bytes. -/
def LORA_PACKET_SIZE : Nat := 8

/-- The state of a `Logger` object: the selected log target and the packet member. -/
structure Logger where
  file_ext : String
  lora_packet_id : Nat
  packet : LoraPacket
  deriving DecidableEq, Repr

/-- Embedding of `Logger::Logger()`: the constructor clears `lora_packet_id`; `file_ext` is the
empty `String` and the packet member is zero-filled. -/
def Logger.new : Logger :=
  { file_ext := "", lora_packet_id := 0, packet := ⟨0, 0, 0, 0⟩ }

/-- Embedding of `Logger::lora_send(mode, time_stamp, v1, v2, v3)`: packs the id, stores the three
values and hands the first `LORA_PACKET_SIZE` raw bytes to `lora.Send`.  The pair is
the updated logger and the transmitted frame. -/
def Logger.lora_send (lg : Logger) (mode time_stamp : Nat) (v1 v2 v3 : Int) :
    Logger × List Nat :=
  let packet : LoraPacket :=
    { id := ((mode <<< 12) ||| time_stamp) % 65536, data0 := v1, data1 := v2, data2 := v3 }
  ({ lg with packet := packet }, packet.raw.take LORA_PACKET_SIZE)

/-- Embedding of `Logger::lora_send(mode, time_stamp, float v1)`: a local `LoraPacketFloat` is
filled and its first 6 raw bytes are handed to `lora.Send`. -/
def Logger.lora_send_float (mode time_stamp : Nat) (v1 : Nat) : List Nat :=
  let packet : LoraPacketFloat :=
    { id := ((mode <<< 12) ||| time_stamp) % 65536, data := v1 }
  packet.raw.take 6

/-- Decoder of the three-value frame, following the spec: `mode = id >> 12`,
`timestamp = id & 0xFFF`, the three values read back from the data field. -/
def decode (frame : List Nat) : Option (Nat × Nat × Int × Int × Int) :=
  match frame with
  | [i0, i1, a0, a1, b0, b1, c0, c1] =>
    let id := word16 i0 i1
    some (id >>> 12, id &&& 0xFFF, int16_of_bits (word16 a0 a1),
      int16_of_bits (word16 b0 b1), int16_of_bits (word16 c0 c1))
  | _ => none

/-- Decoder of the float frame, following the spec: `mode = id >> 12`,
`timestamp = id & 0xFFF`, the payload read back bit for bit. -/
def decode_float (frame : List Nat) : Option (Nat × Nat × Nat) :=
  match frame with
  | [i0, i1, a0, a1, a2, a3] =>
    let id := word16 i0 i1
    some (id >>> 12, id &&& 0xFFF, word32 a0 a1 a2 a3)
  | _ => none

/-- The local buffer `uint8_t data[4]` of `lora_info` together with the stores that
fall outside it: a cell is `none` while nothing has been stored in it, and a store at
an index that is not below the buffer length is recorded in `out_of_bounds`. -/
structure InfoBuffer where
  data : List (Option Nat)
  out_of_bounds : List (Nat × Nat)
  deriving DecidableEq, Repr

/-- The declaration `uint8_t data[4];`: four cells, none of them written. -/
def InfoBuffer.fresh : InfoBuffer := { data := [none, none, none, none], out_of_bounds := [] }

/-- The assignment `data[i] = v` on the local buffer (`v` truncated to `uint8_t`). -/
def InfoBuffer.store (b : InfoBuffer) (i v : Nat) : InfoBuffer :=
  if i < b.data.length then { b with data := b.data.set i (some (v % 256)) }
  else { b with out_of_bounds := b.out_of_bounds ++ [(i, v % 256)] }

/-- Embedding of `Logger::lora_info(mode, time_stamp, uint8_t code, value)`: the four assignments
of the source, in order, then `lora.Send(data, 4, ...)`.  The result is the buffer
state after the assignments and the 4 cells handed to the transport. -/
def Logger.lora_info (mode time_stamp code value : Nat) : InfoBuffer × List (Option Nat) :=
  let b0 := InfoBuffer.fresh
  let b1 := b0.store 0 ((mode <<< 4) ||| (time_stamp >>> 8))
  let b2 := b1.store 1 (time_stamp &&& 0xFF)
  let b3 := b2.store 3 code
  let b4 := b3.store 4 value
  (b4, b4.data.take 4)

/-- The enumeration `ERROR_CODE` (its declaration is in a header absent from the
sources; these are the enumerators the two modules return). -/
inductive ERROR_CODE
  | ERROR_OK
  | ERROR_MPU_INIT_FAILED
  | ERROR_DMP_INIT_FAILED
  | ERROR_BMP_INIT_FAILED
  | ERROR_SD_INIT_FAILED
  deriving DecidableEq, Repr

/-- Embedding of `Logger::lora_info(mode, time_stamp, ERROR_CODE code, value)`: the same body, the
code byte being `(uint8_t) code`; `codeValue` gives the enumerators their integer
values. -/
def Logger.lora_info_code (codeValue : ERROR_CODE → Int) (mode time_stamp : Nat)
    (code : ERROR_CODE) (value : Nat) : InfoBuffer × List (Option Nat) :=
  Logger.lora_info mode time_stamp ((codeValue code) % 256).toNat value

/-! ## Event logger (`Logger::init`, `Logger::log`, `Logger::log_code`) -/

/-- The enumeration `LOG_LEVEL`, as the `switch` of `Logger::log` lists it. -/
inductive LOG_LEVEL
  | LEVEL_DEBUG
  | LEVEL_INFO
  | LEVEL_WARNING
  | LEVEL_ERROR
  deriving DecidableEq, Repr

/-- Build-time switches and constants of the logger (configuration header absent
from the sources, so they are parameters). -/
structure LoggerConfig where
  USE_SERIAL_DEBUGGER : Bool
  USE_PERIPHERAL_SD_CARD : Bool
  LOGGER_FILENAME : String
  LOGGER_FILE_EXT : String
  codeValue : ERROR_CODE → Int

/-- The peripherals the logger talks to: the SD card (whether it answers, and its
files as lines of text), the serial console, and the millisecond clock. -/
structure World where
  sd_ok : Bool
  files : List (String × List String)
  serial : List String
  clock : Nat
  deriving DecidableEq, Repr

/-- Reading of `millis()`: the 32-bit millisecond counter. -/
def World.millis (w : World) : Nat := w.clock % 4294967296

/-- Embedding of `SD.exists(name)`: whether the store holds a file of that name. -/
def World.SD_exists (w : World) (name : String) : Bool := w.files.any (fun f => f.1 == name)

/-- The lines stored under `name` (empty when there is no such file). -/
def World.content (w : World) (name : String) : List String :=
  match w.files.find? (fun f => f.1 == name) with
  | some f => f.2
  | none => []

/-- Appending one line to the file `name`, creating the file when it is missing:
the effect of `SD.open(name, FILE_WRITE)`, `println`, `close` on a working card. -/
def appendLine (name line : String) : List (String × List String) → List (String × List String)
  | [] => [(name, [line])]
  | f :: fs => if f.1 == name then (f.1, f.2 ++ [line]) :: fs else f :: appendLine name line fs

/-- Embedding of `Logger::log(msg, level)`: the level tag, the clock and a comma form the leading
part; the line goes to the file `file_ext` when the card can be opened, and to the
serial console. -/
def Logger.log (cfg : LoggerConfig) (lg : Logger) (w : World) (msg : String)
    (level : LOG_LEVEL) : World :=
  let tag : String :=
    match level with
    | .LEVEL_DEBUG => "D:"
    | .LEVEL_INFO => "I:"
    | .LEVEL_WARNING => "W:"
    | .LEVEL_ERROR => "E:"
  let pre := tag ++ (toString w.millis ++ ",")
  let w1 : World :=
    if cfg.USE_PERIPHERAL_SD_CARD && w.sd_ok then
      { w with files := appendLine lg.file_ext (pre ++ msg) w.files }
    else w
  if cfg.USE_SERIAL_DEBUGGER then { w1 with serial := w1.serial ++ [pre ++ msg] } else w1

/-- Embedding of `Logger::log_code(code, level)`. -/
def Logger.log_code (cfg : LoggerConfig) (lg : Logger) (w : World) (code : Int)
    (level : LOG_LEVEL) : World :=
  Logger.log cfg lg w (toString code) level

/-- The loop `for (int i = 0; SD.exists(file_ext); i++) file_ext = filename + String(i)
+ extension;` run for at most `fuel` iterations from index `i` and candidate
`file_ext`; `none` when the candidate still exists after `fuel` iterations.  The
counter `i` is a natural number: the scan stops at an index not above the number of
files, so the `int` of the source does not wrap on a store it can hold. -/
def probe (w : World) (filename extension : String) : Nat → Nat → String → Option String
  | 0, _, file_ext => if w.SD_exists file_ext then none else some file_ext
  | fuel + 1, i, file_ext =>
    if w.SD_exists file_ext then
      probe w filename extension fuel (i + 1) (filename ++ toString i ++ extension)
    else some file_ext

/-- Embedding of `Logger::init()`: the updated logger, the world after its effects and
the returned flag; `none` when the uniqueness scan is still running after `fuel`
iterations.  `Serial.begin` leaves the modelled state as it is. -/
def Logger.init (cfg : LoggerConfig) (lg : Logger) (w : World) (fuel : Nat) :
    Option (Logger × World × Bool) :=
  if cfg.USE_PERIPHERAL_SD_CARD then
    if !w.sd_ok then
      some (lg, Logger.log_code cfg lg w (cfg.codeValue .ERROR_SD_INIT_FAILED) .LEVEL_ERROR, false)
    else
      match probe w cfg.LOGGER_FILENAME cfg.LOGGER_FILE_EXT fuel 0
          (cfg.LOGGER_FILENAME ++ cfg.LOGGER_FILE_EXT) with
      | some name => some ({ lg with file_ext := name }, w, true)
      | none => none
  else some (lg, w, true)

/-- A session of `log` calls: before each call the clock has moved to the given
reading. -/
def Logger.log_all (cfg : LoggerConfig) (lg : Logger) :
    World → List (Nat × String × LOG_LEVEL) → World
  | w, [] => w
  | w, (t, msg, level) :: rest =>
    Logger.log_all cfg lg (Logger.log cfg lg { w with clock := t } msg level) rest

/-- The single-letter level tag of the spec's record format. -/
def LOG_LEVEL.letter : LOG_LEVEL → String
  | .LEVEL_DEBUG => "D"
  | .LEVEL_INFO => "I"
  | .LEVEL_WARNING => "W"
  | .LEVEL_ERROR => "E"

/-- The log record as the spec writes it: level tag, colon, decimal milliseconds, comma,
message. -/
def record_line (level : LOG_LEVEL) (ms : Nat) (msg : String) : String :=
  level.letter ++ ":" ++ toString ms ++ "," ++ msg

/-- A logger configuration used to exercise the logger: both sinks compiled in, target
`log` with extension `.txt`. -/
def demoLogger : LoggerConfig :=
  { USE_SERIAL_DEBUGGER := true, USE_PERIPHERAL_SD_CARD := true,
    LOGGER_FILENAME := "log", LOGGER_FILE_EXT := ".txt",
    codeValue := fun e =>
      match e with
      | .ERROR_OK => 0
      | .ERROR_MPU_INIT_FAILED => 1
      | .ERROR_DMP_INIT_FAILED => 2
      | .ERROR_BMP_INIT_FAILED => 3
      | .ERROR_SD_INIT_FAILED => 4 }

/-- A working card that already holds the log file of an earlier boot. -/
def secondBootWorld : World :=
  { sd_ok := true, files := [("log.txt", ["I:5,boot"])], serial := [], clock := 1234 }

/-- A card that does not answer. -/
def deadCardWorld : World :=
  { sd_ok := false, files := [], serial := [], clock := 1234 }

/-! ## Interrupt handoff (`dmpDataReady`) -/

/-- Embedding of `dmpDataReady()`: the interrupt routine, acting on the global `mpuInterrupt`. -/
def dmpDataReady (_mpuInterrupt : Bool) : Bool := true

/-- Modelled from the spec: `poll_and_clear()` of the interrupt handoff, which the
sources do not contain (nothing in them reads `mpuInterrupt`); it reads and clears
the flag and returns whether a sample was pending.  The pair is the returned value
and the flag afterwards. -/
def poll_and_clear (mpuInterrupt : Bool) : Bool × Bool := (mpuInterrupt, false)

/-! ## Altitude phase filter and sensor bring-up (`IMU`) -/

/-- The enumeration of flight phases held in `IMU::pose`. -/
inductive ROCKET_POSE
  | ROCKET_UNKNOWN
  | ROCKET_RISING
  | ROCKET_FALLING
  deriving DecidableEq, Repr

/-- Build-time switches and constants of the sensor module (configuration header
absent from the sources, so they are parameters). -/
structure Config where
  USE_PERIPHERAL_MPU6050 : Bool
  USE_PERIPHERAL_BMP280 : Bool
  USE_MPU_ISP_INTERFACE : Bool
  IMU_ALTITUDE_SMOOTHING_CONSTANT : ℚ
  IMU_BMP_SAMPLING_PERIOD : ℚ
  IMU_RISING_CRITERIA : ℚ
  IMU_FALLING_CRITERIA : ℚ
  IMU_BMP_SEA_LEVEL_PRESSURE_SAMPLING : Nat

/-- The members of an `IMU` object that the embedded functions touch, followed by the
function-local statics of `altitude_filter` (`decay`) and `bmp_update`
(`lastAltitude`, `rising_filter`, `falling_filter`). -/
structure IMU where
  pose : ROCKET_POSE
  imu_update_flag : Nat
  altitude : ℚ
  seaLevelHpa : ℚ
  devStatus : Nat
  mpuIntStatus : Nat
  dmpReady : Bool
  packetSize : Nat
  mpu_last_update_time : Nat
  decay : Option ℚ
  lastAltitude : Option ℚ
  rising_filter : Nat
  falling_filter : Nat
  deriving DecidableEq

/-- Embedding of `IMU::IMU()`: `pose` and `imu_update_flag` are set by the constructor; the statics
are not yet initialised and the two shift registers start at zero. -/
def IMU.new : IMU :=
  { pose := .ROCKET_UNKNOWN, imu_update_flag := 0, altitude := 0, seaLevelHpa := 0,
    devStatus := 0, mpuIntStatus := 0, dmpReady := false, packetSize := 0,
    mpu_last_update_time := 0, decay := none, lastAltitude := none,
    rising_filter := 0, falling_filter := 0 }

/-- Embedding of `IMU::altitude_filter(v)`: `static float decay = v;` takes effect on the first call
only; the result is the updated state and the returned value. -/
def IMU.altitude_filter (c : Config) (s : IMU) (v : ℚ) : IMU × ℚ :=
  let decay0 : ℚ := s.decay.getD v
  let decay : ℚ := c.IMU_ALTITUDE_SMOOTHING_CONSTANT * decay0
    + (1 - c.IMU_ALTITUDE_SMOOTHING_CONSTANT) * v
  ({ s with decay := some decay }, decay)

/-- The local `derivative` of `bmp_update` for the raw reading `raw`:
`1000 * (altitude - lastAltitude) / IMU_BMP_SAMPLING_PERIOD`, where
`static float lastAltitude = altitude;` takes effect on the first call only.  Over `ℚ`
a zero sampling period gives the derivative 0. -/
def IMU.derivative (c : Config) (s : IMU) (raw : ℚ) : ℚ :=
  let altitude : ℚ := (s.altitude_filter c raw).2
  let lastAltitude : ℚ := s.lastAltitude.getD altitude
  1000 * (altitude - lastAltitude) / c.IMU_BMP_SAMPLING_PERIOD

/-- The value of `rising_filter` after `rising_filter |= (derivative > IMU_RISING_CRITERIA)`. -/
def IMU.rising_or (c : Config) (s : IMU) (raw : ℚ) : Nat :=
  s.rising_filter ||| (if s.derivative c raw > c.IMU_RISING_CRITERIA then 1 else 0)

/-- The value of `falling_filter` after `falling_filter |= (derivative < IMU_FALLING_CRITERIA)`. -/
def IMU.falling_or (c : Config) (s : IMU) (raw : ℚ) : Nat :=
  s.falling_filter ||| (if s.derivative c raw < c.IMU_FALLING_CRITERIA then 1 else 0)

/-- Embedding of `IMU::bmp_update()`, `raw` being the value `bmp.readAltitude(seaLevelHpa)` returns
in this tick. -/
def IMU.bmp_update (c : Config) (s : IMU) (raw : ℚ) : IMU :=
  let r := s.altitude_filter c raw
  let rising_filter := s.rising_or c raw
  let falling_filter := s.falling_or c raw
  let pose : ROCKET_POSE :=
    if rising_filter &&& 0b0111 = 0b0111 then .ROCKET_RISING
    else if falling_filter &&& 0b0111 = 0b0111 then .ROCKET_FALLING
    else .ROCKET_UNKNOWN
  { r.1 with
    altitude := r.2
    lastAltitude := some r.2
    pose := pose
    rising_filter := (rising_filter <<< 1) % 256
    falling_filter := (falling_filter <<< 1) % 256 }

/-- Consecutive ticks of `bmp_update` on a list of raw readings. -/
def IMU.run (c : Config) : IMU → List ℚ → IMU
  | s, [] => s
  | s, raw :: rest => IMU.run c (s.bmp_update c raw) rest

/-- Every tick of the list, run from `s`, has its derivative above the rising
criterion. -/
def IMU.all_above (c : Config) : IMU → List ℚ → Prop
  | _, [] => True
  | s, raw :: rest =>
    s.derivative c raw > c.IMU_RISING_CRITERIA ∧ IMU.all_above c (s.bmp_update c raw) rest

/-- The register class after `j` ticks of a run above the rising criterion: bit 1 clear
at its start, low bits `010` after one tick, `110` from the second tick on. -/
def run_class (j rf : Nat) : Prop :=
  (j = 0 ∧ rf % 4 = 0) ∨ (j = 1 ∧ rf % 8 = 2) ∨ (2 ≤ j ∧ rf % 8 = 6)

/-- A configuration used to exercise the filter: smoothing constant 1/2, sampling
period 20 ms, criteria +50 and -50 m/s. -/
def demoConfig : Config :=
  { USE_PERIPHERAL_MPU6050 := true, USE_PERIPHERAL_BMP280 := true,
    USE_MPU_ISP_INTERFACE := false, IMU_ALTITUDE_SMOOTHING_CONSTANT := 1 / 2,
    IMU_BMP_SAMPLING_PERIOD := 20, IMU_RISING_CRITERIA := 50, IMU_FALLING_CRITERIA := -50,
    IMU_BMP_SEA_LEVEL_PRESSURE_SAMPLING := 2 }

/-- A misconfigured variant whose criteria overlap: rising above -1, falling below 1. -/
def overlapConfig : Config :=
  { demoConfig with IMU_RISING_CRITERIA := -1, IMU_FALLING_CRITERIA := 1 }

/-- The answers of the peripheral drivers during `IMU::init`. -/
structure Hardware where
  mpu_testConnection : Bool
  mpu_dmpInitialize : Nat
  mpu_getIntStatus : Nat
  mpu_dmpGetFIFOPacketSize : Nat
  bmp_begin : Bool
  bmp_readPressure : Nat → ℚ
  bmp_readTemperature : Nat → ℚ

/-- The driver calls `IMU::init` makes, in the order of the source: `wire_begin` is the
I2C bus set-up (`Wire.begin`, `Wire.setClock`, or `Fastwire::setup`), `mpu_start` is
`mpu.initialize()`. -/
inductive DriverCall
  | wire_begin
  | mpu_start
  | delay (ms : Nat)
  | mpu_testConnection
  | mpu_dmpInitialize
  | mpu_setXGyroOffset (v : Int)
  | mpu_setYGyroOffset (v : Int)
  | mpu_setZGyroOffset (v : Int)
  | mpu_setZAccelOffset (v : Int)
  | mpu_CalibrateAccel (loops : Nat)
  | mpu_CalibrateGyro (loops : Nat)
  | mpu_PrintActiveOffsets
  | mpu_setDMPEnabled (enabled : Bool)
  | mpu_getIntStatus
  | mpu_dmpGetFIFOPacketSize
  | bmp_begin
  | bmp_setSampling
  | pinMode_cs
  | digitalWrite_cs
  | bmp_readPressure
  | bmp_readTemperature
  deriving DecidableEq, Repr

/-- The outcome of one stage of `IMU::init`: the state, the driver calls made so far,
and the status code when the stage executed a `return`. -/
structure InitStage where
  imu : IMU
  calls : List DriverCall
  returned : Option ERROR_CODE

/-- The block of `IMU::init` under `USE_PERIPHERAL_MPU6050`. -/
def IMU.init_mpu (c : Config) (hw : Hardware) (s : IMU) : InitStage :=
  if c.USE_PERIPHERAL_MPU6050 then
    let calls0 : List DriverCall := [.wire_begin, .mpu_start, .delay 100, .mpu_testConnection]
    if !hw.mpu_testConnection then
      { imu := s, calls := calls0, returned := some .ERROR_MPU_INIT_FAILED }
    else
      let s1 : IMU := { s with devStatus := hw.mpu_dmpInitialize % 256 }
      let calls1 : List DriverCall := calls0 ++ [.mpu_dmpInitialize, .mpu_setXGyroOffset 57,
        .mpu_setYGyroOffset 2, .mpu_setZGyroOffset 1, .mpu_setZAccelOffset 1064]
      if s1.devStatus = 0 then
        { imu := { s1 with mpuIntStatus := hw.mpu_getIntStatus % 256, dmpReady := true,
                           packetSize := hw.mpu_dmpGetFIFOPacketSize % 65536 }
          calls := calls1 ++ [.mpu_CalibrateAccel 6, .mpu_CalibrateGyro 6,
            .mpu_PrintActiveOffsets, .mpu_setDMPEnabled true, .mpu_getIntStatus,
            .mpu_dmpGetFIFOPacketSize]
          returned := none }
      else
        { imu := s1, calls := calls1, returned := some .ERROR_DMP_INIT_FAILED }
  else { imu := s, calls := [], returned := none }

/-- The first block under `USE_PERIPHERAL_BMP280` (`bmp.begin`, `bmp.setSampling`)
and the block under `USE_MPU_ISP_INTERFACE`. -/
def IMU.init_bmp (c : Config) (hw : Hardware) (s : IMU) : InitStage :=
  let st : InitStage :=
    if c.USE_PERIPHERAL_BMP280 then
      if !hw.bmp_begin then
        { imu := s, calls := [.bmp_begin], returned := some .ERROR_BMP_INIT_FAILED }
      else { imu := s, calls := [.bmp_begin, .bmp_setSampling], returned := none }
    else { imu := s, calls := [], returned := none }
  match st.returned with
  | some _ => st
  | none =>
    if c.USE_MPU_ISP_INTERFACE then { st with calls := st.calls ++ [.pinMode_cs, .digitalWrite_cs] }
    else st

/-- The sum `p` accumulated by the sea-level loop over `n` pressure readings. -/
def pressure_sum (hw : Hardware) (n : Nat) : ℚ :=
  ((List.range n).map hw.bmp_readPressure).sum

/-- The second block under `USE_PERIPHERAL_BMP280`: the sea-level reference. -/
def IMU.init_sea_level (c : Config) (hw : Hardware) (s : IMU) : InitStage :=
  if c.USE_PERIPHERAL_BMP280 then
    let n := c.IMU_BMP_SEA_LEVEL_PRESSURE_SAMPLING
    { imu := { s with seaLevelHpa := pressure_sum hw n / n / 100 }
      calls := (List.replicate n [DriverCall.bmp_readPressure, .bmp_readTemperature, .delay 20]).flatten
      returned := none }
  else { imu := s, calls := [], returned := none }

/-- Embedding of `IMU::init()`: the state afterwards, the driver calls made, and the returned
status code. -/
def IMU.init (c : Config) (hw : Hardware) (s : IMU) : IMU × List DriverCall × ERROR_CODE :=
  let m := s.init_mpu c hw
  match m.returned with
  | some e => (m.imu, m.calls, e)
  | none =>
    let b := m.imu.init_bmp c hw
    match b.returned with
    | some e => (b.imu, m.calls ++ b.calls, e)
    | none =>
      let l := b.imu.init_sea_level c hw
      (l.imu, m.calls ++ b.calls ++ l.calls, .ERROR_OK)

/-- Peripheral answers in which the MPU6050 is connected but its DMP fails to load
(status 1), while the barometer is healthy. -/
def dmpFailHardware : Hardware :=
  { mpu_testConnection := true, mpu_dmpInitialize := 1, mpu_getIntStatus := 0,
    mpu_dmpGetFIFOPacketSize := 42, bmp_begin := true,
    bmp_readPressure := fun _ => 101325, bmp_readTemperature := fun _ => 25 }

/-- The comparison `derivative > IMU_RISING_CRITERIA` of the tick that reads `raw`. -/
def IMU.rising_bit (c : Config) (s : IMU) (raw : ℚ) : Bool :=
  decide (s.derivative c raw > c.IMU_RISING_CRITERIA)

/-- The comparison `derivative < IMU_FALLING_CRITERIA` of the tick that reads `raw`. -/
def IMU.falling_bit (c : Config) (s : IMU) (raw : ℚ) : Bool :=
  decide (s.derivative c raw < c.IMU_FALLING_CRITERIA)

/-- The two comparisons (rising, falling) of every tick of a run, oldest tick first. -/
def IMU.history (c : Config) : IMU → List ℚ → List (Bool × Bool)
  | _, [] => []
  | s, raw :: rest =>
    (s.rising_bit c raw, s.falling_bit c raw) :: IMU.history c (s.bmp_update c raw) rest

/-- The pose after every tick of a run, oldest tick first. -/
def IMU.poses (c : Config) : IMU → List ℚ → List ROCKET_POSE
  | _, [] => []
  | s, raw :: rest => (s.bmp_update c raw).pose :: IMU.poses c (s.bmp_update c raw) rest

/-- The phase as the spec derives it from the comparisons of the last three ticks
(newest first): RISING when the three rising comparisons hold, else FALLING when the
three falling comparisons hold, else UNKNOWN. -/
def window_phase : List (Bool × Bool) → ROCKET_POSE
  | [a, b, d] =>
    if a.1 && b.1 && d.1 then .ROCKET_RISING
    else if a.2 && b.2 && d.2 then .ROCKET_FALLING
    else .ROCKET_UNKNOWN
  | _ => .ROCKET_UNKNOWN

/-- The low three bits of a shift register before a tick, in terms of the comparison
of the previous tick (`b1`) and of the tick before it (`b2`). -/
def reg_ok (rf : Nat) (b1 b2 : Bool) : Prop :=
  rf % 8 = 2 * b1.toNat + 4 * b2.toNat

/-- The first call of `bmp_update` is still to come: no static is initialised and the
two shift registers hold their initial zero. -/
def IMU.fresh (s : IMU) : Prop :=
  s.decay = none ∧ s.lastAltitude = none ∧ s.rising_filter = 0 ∧ s.falling_filter = 0

/-- The configuration of the spec's altitude scenario: 20 ms sampling, smoothing
constant 0.9, rising criterion 50 m/s; the falling criterion is left open. -/
def scenarioConfig (falling : ℚ) : Config :=
  { USE_PERIPHERAL_MPU6050 := true, USE_PERIPHERAL_BMP280 := true,
    USE_MPU_ISP_INTERFACE := false, IMU_ALTITUDE_SMOOTHING_CONSTANT := 9 / 10,
    IMU_BMP_SAMPLING_PERIOD := 20, IMU_RISING_CRITERIA := 50, IMU_FALLING_CRITERIA := falling,
    IMU_BMP_SEA_LEVEL_PRESSURE_SAMPLING := 2 }

/-- The spec's window phase after every tick of a history (oldest first), `p1` and `p2`
being the comparisons of the tick before the history and of the one before that. -/
def windows (p1 p2 : Bool × Bool) : List (Bool × Bool) → List ROCKET_POSE
  | [] => []
  | h :: rest => window_phase [h, p1, p2] :: windows h p1 rest

/-- A filter that has so far seen nothing but the altitude `v`: the statics are either
not initialised yet or hold `v`, and both shift registers are clear. -/
def IMU.at_rest (s : IMU) (v : ℚ) : Prop :=
  (s.decay = none ∨ s.decay = some v) ∧ (s.lastAltitude = none ∨ s.lastAltitude = some v)
    ∧ s.rising_filter = 0 ∧ s.falling_filter = 0

/-- Embedding of `IMU::imu_isr_update()`: `packet` is what `mpu.dmpGetCurrentFIFOPacket`
delivers (`none` when no FIFO packet is available) and `w` carries the millisecond
clock.  The members the vendor DMP routines fill from the packet (`fifoBuffer`, `q`,
`aaWorld`) are floating-point data kept outside the embedded state.  The pair is the
state afterwards and the returned flag. -/
def IMU.imu_isr_update (s : IMU) (packet : Option (List Nat)) (w : World) : IMU × Bool :=
  if s.dmpReady then
    match packet with
    | some _ =>
      ({ s with mpu_last_update_time := w.millis &&& 0x0FFF, imu_update_flag := 0xFF }, true)
    | none => (s, false)
  else (s, false)

/-- A world whose millisecond clock has passed 4096. -/
def lateWorld : World :=
  { sd_ok := false, files := [], serial := [], clock := 5000 }

/-- A working card that holds the log files of two earlier boots. -/
def thirdBootWorld : World :=
  { sd_ok := true, files := [("log.txt", ["I:5,boot"]), ("log0.txt", ["I:7,boot"])],
    serial := [], clock := 1234 }

/-! ### Lemmas on the id packing -/

theorem shl12_or_lt (mode ts : Nat) (hm : mode < 16) (hts : ts < 65536) :
    (mode <<< 12) ||| ts < 65536 := by
  have h1 : mode <<< 12 < 2 ^ 16 := by
    rw [Nat.shiftLeft_eq]; omega
  have h2 : (mode <<< 12) ||| ts < 2 ^ 16 := Nat.or_lt_two_pow h1 hts
  simpa using h2

theorem testBit_4095 (i : Nat) : Nat.testBit 4095 i = decide (i < 12) := by
  have h := Nat.testBit_two_pow_sub_one 12 i
  simpa using h

theorem id_shr12 (mode ts : Nat) (hm : mode < 16) (hts : ts < 65536) :
    (((mode <<< 12) ||| ts) % 65536) >>> 12 = mode ||| (ts >>> 12) := by
  rw [Nat.mod_eq_of_lt (shl12_or_lt mode ts hm hts)]
  apply Nat.eq_of_testBit_eq
  intro i
  simp [Nat.testBit_shiftRight, Nat.testBit_or, Nat.testBit_shiftLeft]

theorem id_and_fff (mode ts : Nat) (hm : mode < 16) (hts : ts < 65536) :
    (((mode <<< 12) ||| ts) % 65536) &&& 0xFFF = ts &&& 0xFFF := by
  rw [Nat.mod_eq_of_lt (shl12_or_lt mode ts hm hts)]
  apply Nat.eq_of_testBit_eq
  intro i
  simp only [Nat.testBit_and, Nat.testBit_or, Nat.testBit_shiftLeft, testBit_4095]
  by_cases h : i < 12 <;> simp [h]

theorem word16_bytes16 (w : Nat) (h : w < 65536) :
    word16 (w % 256) ((w / 256) % 256) = w := by
  unfold word16; omega

theorem word32_bytes32 (w : Nat) (h : w < 4294967296) :
    word32 (w % 256) ((w / 256) % 256) ((w / 65536) % 256) ((w / 16777216) % 256) = w := by
  unfold word32; omega

theorem int16_bits_lt (v : Int) : int16_bits v < 65536 := by
  unfold int16_bits; omega

theorem int16_roundtrip (v : Int) (hlo : -32768 ≤ v) (hhi : v < 32768) :
    int16_of_bits (int16_bits v) = v := by
  unfold int16_of_bits int16_bits
  split <;> omega

theorem int16_slot (v : Int) (hlo : -32768 ≤ v) (hhi : v < 32768) :
    int16_of_bits (word16 (int16_bits v % 256) ((int16_bits v / 256) % 256)) = v := by
  rw [word16_bytes16 _ (int16_bits_lt v), int16_roundtrip v hlo hhi]

theorem and_fff_eq_mod (ts : Nat) : ts &&& 0xFFF = ts % 4096 := by
  have h := Nat.and_pow_two_sub_one_eq_mod ts 12
  simpa using h

theorem lora_send_frame (lg : Logger) (mode ts : Nat) (v1 v2 v3 : Int) :
    (lg.lora_send mode ts v1 v2 v3).2 =
      [(((mode <<< 12) ||| ts) % 65536) % 256, ((((mode <<< 12) ||| ts) % 65536) / 256) % 256,
       int16_bits v1 % 256, (int16_bits v1 / 256) % 256,
       int16_bits v2 % 256, (int16_bits v2 / 256) % 256,
       int16_bits v3 % 256, (int16_bits v3 / 256) % 256] := by
  simp [Logger.lora_send, LoraPacket.raw, bytes16, LORA_PACKET_SIZE]

theorem lora_send_float_frame (mode ts bits : Nat) :
    Logger.lora_send_float mode ts bits =
      [(((mode <<< 12) ||| ts) % 65536) % 256, ((((mode <<< 12) ||| ts) % 65536) / 256) % 256,
       bits % 256, (bits / 256) % 256, (bits / 65536) % 256, (bits / 16777216) % 256] := by
  simp [Logger.lora_send_float, LoraPacketFloat.raw, bytes16, bytes32]

/-! ## Telemetry codec: round trip -/

/-- C1 (as the code behaves): for every mode in 0..15, every 16-bit timestamp and every
triple of `int16_t` values (resp. every 32-bit float pattern), decoding the frame built
by `lora_send` returns the values unchanged and the timestamp `ts & 0xFFF`, while the
decoded mode is `mode | (ts >> 12)`: the timestamp is OR-ed in unmasked.  The mode is
recovered whenever `ts < 4096`. -/
theorem lora_send_decode (lg : Logger) (mode ts bits : Nat) (v1 v2 v3 : Int)
    (hm : mode < 16) (hts : ts < 65536) (hbits : bits < 4294967296)
    (h1 : -32768 ≤ v1 ∧ v1 < 32768) (h2 : -32768 ≤ v2 ∧ v2 < 32768)
    (h3 : -32768 ≤ v3 ∧ v3 < 32768) :
    decode (lg.lora_send mode ts v1 v2 v3).2
        = some (mode ||| (ts >>> 12), ts &&& 0xFFF, v1, v2, v3)
      ∧ decode_float (Logger.lora_send_float mode ts bits)
        = some (mode ||| (ts >>> 12), ts &&& 0xFFF, bits)
      ∧ (ts < 4096 →
          decode (lg.lora_send mode ts v1 v2 v3).2 = some (mode, ts, v1, v2, v3)
          ∧ decode_float (Logger.lora_send_float mode ts bits) = some (mode, ts, bits)) := by
  have hid : ((mode <<< 12) ||| ts) % 65536 < 65536 := Nat.mod_lt _ (by norm_num)
  have hA : decode (lg.lora_send mode ts v1 v2 v3).2
      = some (mode ||| (ts >>> 12), ts &&& 0xFFF, v1, v2, v3) := by
    rw [lora_send_frame]
    simp only [decode]
    rw [word16_bytes16 _ hid, id_shr12 mode ts hm hts, id_and_fff mode ts hm hts,
      int16_slot v1 h1.1 h1.2, int16_slot v2 h2.1 h2.2, int16_slot v3 h3.1 h3.2]
  have hB : decode_float (Logger.lora_send_float mode ts bits)
      = some (mode ||| (ts >>> 12), ts &&& 0xFFF, bits) := by
    rw [lora_send_float_frame]
    simp only [decode_float]
    rw [word16_bytes16 _ hid, id_shr12 mode ts hm hts, id_and_fff mode ts hm hts,
      word32_bytes32 bits hbits]
  refine ⟨hA, hB, ?_⟩
  intro hlt
  have hs : ts >>> 12 = 0 := by
    rw [Nat.shiftRight_eq_div_pow]; exact Nat.div_eq_of_lt (by simpa using hlt)
  have ha : ts &&& 0xFFF = ts := by
    rw [and_fff_eq_mod]; exact Nat.mod_eq_of_lt hlt
  rw [hA, hB, hs, ha, Nat.or_zero]
  exact ⟨rfl, rfl⟩

/-- Witness of `lora_send_decode`: mode 2, timestamp 1, values 1, -1, 0 and the float
pattern of 1.0. -/
theorem lora_send_decode_witness :
    decode (Logger.new.lora_send 2 1 1 (-1) 0).2 = some (2 ||| (1 >>> 12), 1 &&& 0xFFF, 1, -1, 0)
      ∧ decode_float (Logger.lora_send_float 2 1 1065353216)
        = some (2 ||| (1 >>> 12), 1 &&& 0xFFF, 1065353216)
      ∧ (1 < 4096 →
          decode (Logger.new.lora_send 2 1 1 (-1) 0).2 = some (2, 1, 1, -1, 0)
          ∧ decode_float (Logger.lora_send_float 2 1 1065353216) = some (2, 1, 1065353216)) :=
  lora_send_decode Logger.new 2 1 1065353216 1 (-1) 0 (by decide) (by decide) (by decide)
    (by decide) (by decide) (by decide)

/-- C1 (as stated) fails: the frame built for mode 2, timestamp 4097 and values 1, -1, 0
decodes to mode 3 (timestamp 1, values unchanged), not to mode 2. -/
theorem lora_send_mode_clobbered :
    decode (Logger.new.lora_send 2 4097 1 (-1) 0).2 = some (3, 1, 1, -1, 0)
      ∧ decode (Logger.new.lora_send 2 4097 1 (-1) 0).2 ≠ some (2, 4097 &&& 0xFFF, 1, -1, 0) := by
  decide

/-! ## Altitude phase filter -/

theorem even_or_one (x : Nat) (h : x % 2 = 0) : x ||| 1 = x + 1 := by
  obtain ⟨y, rfl⟩ : ∃ y, x = 2 * y := ⟨x / 2, by omega⟩
  have h1 : (1 : Nat) = Nat.bit true 0 := by simp [Nat.bit]
  have h2 : 2 * y = Nat.bit false y := by simp [Nat.bit]
  rw [h2]
  conv_lhs => rw [h1]
  rw [Nat.lor_bit]
  simp [Nat.bit]

theorem and_seven (x : Nat) : x &&& 0b0111 = x % 8 := by
  have h := Nat.and_pow_two_sub_one_eq_mod x 3
  simpa using h

theorem shl_one (x : Nat) : x <<< 1 = 2 * x := by
  rw [Nat.shiftLeft_eq]; omega

theorem bmp_update_rising_filter (c : Config) (s : IMU) (raw : ℚ) :
    (s.bmp_update c raw).rising_filter = (2 * s.rising_or c raw) % 256 := by
  simp [IMU.bmp_update, shl_one]

theorem bmp_update_falling_filter (c : Config) (s : IMU) (raw : ℚ) :
    (s.bmp_update c raw).falling_filter = (2 * s.falling_or c raw) % 256 := by
  simp [IMU.bmp_update, shl_one]

theorem bmp_update_pose (c : Config) (s : IMU) (raw : ℚ) :
    (s.bmp_update c raw).pose =
      if s.rising_or c raw % 8 = 7 then .ROCKET_RISING
      else if s.falling_or c raw % 8 = 7 then .ROCKET_FALLING
      else .ROCKET_UNKNOWN := by
  simp only [IMU.bmp_update, and_seven]

theorem rising_or_above (c : Config) (s : IMU) (raw : ℚ) (he : s.rising_filter % 2 = 0)
    (h : s.derivative c raw > c.IMU_RISING_CRITERIA) :
    s.rising_or c raw = s.rising_filter + 1 := by
  simp only [IMU.rising_or, h, if_true]
  exact even_or_one _ he

theorem rising_or_not_above (c : Config) (s : IMU) (raw : ℚ)
    (h : ¬ s.derivative c raw > c.IMU_RISING_CRITERIA) :
    s.rising_or c raw = s.rising_filter := by
  simp [IMU.rising_or, h]

theorem bmp_update_rising_even (c : Config) (s : IMU) (raw : ℚ) :
    (s.bmp_update c raw).rising_filter % 2 = 0 := by
  rw [bmp_update_rising_filter]; omega

theorem run_append (c : Config) (s : IMU) (l1 l2 : List ℚ) :
    s.run c (l1 ++ l2) = (s.run c l1).run c l2 := by
  induction l1 generalizing s with
  | nil => rfl
  | cons r rest ih => simp only [List.cons_append, IMU.run]; exact ih _

theorem run_rising_even (c : Config) (s : IMU) (l : List ℚ) (h : s.rising_filter % 2 = 0) :
    (s.run c l).rising_filter % 2 = 0 := by
  induction l generalizing s with
  | nil => exact h
  | cons r rest ih => exact ih _ (bmp_update_rising_even c s r)

theorem run_class_step (c : Config) (s : IMU) (raw : ℚ) (j : Nat)
    (hc : run_class j s.rising_filter)
    (h : s.derivative c raw > c.IMU_RISING_CRITERIA) :
    ((s.bmp_update c raw).pose = .ROCKET_RISING ↔ 2 ≤ j)
      ∧ run_class (j + 1) (s.bmp_update c raw).rising_filter := by
  have he : s.rising_filter % 2 = 0 := by
    rcases hc with ⟨_, h0⟩ | ⟨_, h0⟩ | ⟨_, h0⟩ <;> omega
  have hor := rising_or_above c s raw he h
  constructor
  · rw [bmp_update_pose, hor]
    by_cases h7 : (s.rising_filter + 1) % 8 = 7
    · simp only [h7, if_true, true_iff]
      rcases hc with ⟨_, h0⟩ | ⟨_, h0⟩ | ⟨hj, h0⟩ <;> omega
    · have hj : ¬ 2 ≤ j := by
        intro hj
        rcases hc with ⟨_, h0⟩ | ⟨_, h0⟩ | ⟨_, h0⟩ <;> omega
      simp only [h7, if_false, hj, iff_false]
      split <;> simp
  · rw [bmp_update_rising_filter, hor]
    unfold run_class
    rcases hc with ⟨hj, h0⟩ | ⟨hj, h0⟩ | ⟨hj, h0⟩
    · right; left; omega
    · right; right; omega
    · right; right; omega

theorem run_above_pose (c : Config) (run : List ℚ) :
    ∀ (s : IMU) (j k : Nat), run_class j s.rising_filter → s.all_above c run →
      1 ≤ k → k ≤ run.length →
      ((s.run c (run.take k)).pose = .ROCKET_RISING ↔ 3 ≤ j + k) := by
  induction run with
  | nil => intro s j k _ _ h1 hk; simp at hk; omega
  | cons r rest ih =>
    intro s j k hc ha h1 hk
    obtain ⟨hd, hrest⟩ := ha
    obtain ⟨hp, hc1⟩ := run_class_step c s r j hc hd
    obtain ⟨k1, rfl⟩ : ∃ k1, k = k1 + 1 := ⟨k - 1, by omega⟩
    simp only [List.take_succ_cons, IMU.run]
    by_cases hk1 : k1 = 0
    · subst hk1
      simp only [List.take_zero, IMU.run]
      rw [hp]; omega
    · have hlen : k1 ≤ rest.length := by simpa using hk
      rw [ih (s.bmp_update c r) (j + 1) k1 hc1 hrest (by omega) hlen]
      omega

/-- C2: debounce.  Let the filter start from a state whose rising register is clear,
run over `before` (empty, or ending in a tick whose derivative is not above the rising
criterion) and then over `run`, every tick of which has its derivative above the
criterion.  Then after the `k`-th tick of `run` the pose is RISING iff `3 ≤ k`. -/
theorem bmp_update_debounce (c : Config) (s0 : IMU) (before run : List ℚ) (k : Nat)
    (hs0 : s0.rising_filter = 0)
    (hbefore : before = [] ∨ ∃ front last, before = front ++ [last] ∧
      ¬ (s0.run c front).derivative c last > c.IMU_RISING_CRITERIA)
    (habove : (s0.run c before).all_above c run)
    (hk1 : 1 ≤ k) (hk : k ≤ run.length) :
    ((s0.run c (before ++ run.take k)).pose = .ROCKET_RISING ↔ 3 ≤ k) := by
  have hcls : run_class 0 (s0.run c before).rising_filter := by
    left
    refine ⟨rfl, ?_⟩
    rcases hbefore with rfl | ⟨front, last, rfl, hlast⟩
    · simp [IMU.run, hs0]
    · rw [run_append]
      simp only [IMU.run]
      have he := run_rising_even c s0 front (by rw [hs0])
      rw [bmp_update_rising_filter, rising_or_not_above c _ last hlast]
      omega
  rw [run_append, run_above_pose c run (s0.run c before) 0 k hcls habove hk1 hk]
  omega

/-- C3: tie-break.  Whatever the two registers hold once the current bits are OR-ed
in, if both windows are confirmed the pose set by `bmp_update` is RISING. -/
theorem bmp_update_tie_break (c : Config) (s : IMU) (raw : ℚ)
    (hr : s.rising_or c raw &&& 0b0111 = 0b0111)
    (_hf : s.falling_or c raw &&& 0b0111 = 0b0111) :
    (s.bmp_update c raw).pose = .ROCKET_RISING := by
  rw [and_seven] at hr
  rw [bmp_update_pose]
  simp [hr]

/-- C4: no warm-up bias.  On the first call of `altitude_filter` (the static `decay`
not yet initialised) the returned value, and the stored `decay`, equal the raw sample
exactly, whatever the smoothing constant. -/
theorem altitude_filter_first (c : Config) (s : IMU) (v : ℚ) (hfirst : s.decay = none) :
    (s.altitude_filter c v).2 = v ∧ (s.altitude_filter c v).1.decay = some v := by
  simp only [IMU.altitude_filter, hfirst, Option.getD_none]
  have h : c.IMU_ALTITUDE_SMOOTHING_CONSTANT * v
      + (1 - c.IMU_ALTITUDE_SMOOTHING_CONSTANT) * v = v := by ring
  rw [h]
  exact ⟨rfl, rfl⟩

/-- Witness of `bmp_update_debounce`: a first tick at altitude 0 (derivative 0), then
the readings 10, 30, 70, whose derivatives are 250, 625 and 1312.5 m/s. -/
theorem bmp_update_debounce_witness :
    ((IMU.new.run demoConfig ([0] ++ [10, 30, 70].take 3)).pose = .ROCKET_RISING ↔ 3 ≤ 3) :=
  bmp_update_debounce demoConfig IMU.new [0] [10, 30, 70] 3 rfl
    (Or.inr ⟨[], 0, rfl, by
      norm_num [IMU.run, IMU.derivative, IMU.altitude_filter, IMU.new, demoConfig]⟩)
    (by
      norm_num [IMU.run, IMU.all_above, IMU.bmp_update, IMU.derivative, IMU.altitude_filter,
        IMU.new, demoConfig])
    (by decide) (by decide)

/-- Witness of `bmp_update_tie_break`: with overlapping criteria, three ticks at a
constant altitude (derivative 0 each time) confirm both windows at the third. -/
theorem bmp_update_tie_break_witness :
    ((IMU.new.run overlapConfig [0, 0]).bmp_update overlapConfig 0).pose = .ROCKET_RISING :=
  bmp_update_tie_break overlapConfig (IMU.new.run overlapConfig [0, 0]) 0
    (by
      norm_num [IMU.run, IMU.bmp_update, IMU.rising_or, IMU.falling_or, IMU.derivative,
        IMU.altitude_filter, IMU.new, overlapConfig, demoConfig]
      decide)
    (by
      norm_num [IMU.run, IMU.bmp_update, IMU.rising_or, IMU.falling_or, IMU.derivative,
        IMU.altitude_filter, IMU.new, overlapConfig, demoConfig]
      decide)

/-- Witness of `altitude_filter_first`: the first sample 100 through a fresh filter. -/
theorem altitude_filter_first_witness :
    (IMU.new.altitude_filter demoConfig 100).2 = 100
      ∧ (IMU.new.altitude_filter demoConfig 100).1.decay = some 100 :=
  altitude_filter_first demoConfig IMU.new 100 rfl

/-! ## Event logger: the uniqueness scan -/

theorem digitChar_inj : ∀ a < 10, ∀ b < 10, Nat.digitChar a = Nat.digitChar b → a = b := by
  decide

theorem map_digitChar_inj : ∀ (l1 l2 : List Nat), (∀ x ∈ l1, x < 10) → (∀ x ∈ l2, x < 10) →
    l1.map Nat.digitChar = l2.map Nat.digitChar → l1 = l2 := by
  intro l1
  induction l1 with
  | nil => intro l2 _ _ h; cases l2 with
    | nil => rfl
    | cons b l2 => simp at h
  | cons a l1 ih =>
    intro l2 h1 h2 h
    cases l2 with
    | nil => simp at h
    | cons b l2 =>
      simp only [List.map_cons, List.cons.injEq] at h
      have hab := digitChar_inj a (h1 a (by simp)) b (h2 b (by simp)) h.1
      have := ih l2 (fun x hx => h1 x (by simp [hx])) (fun x hx => h2 x (by simp [hx])) h.2
      rw [hab, this]

theorem toDigitsCore_eq (fuel : Nat) : ∀ (n : Nat) (ds : List Char), 0 < n → n < fuel →
    Nat.toDigitsCore 10 fuel n ds = ((Nat.digits 10 n).map Nat.digitChar).reverse ++ ds := by
  induction fuel with
  | zero => intro n ds _ h; omega
  | succ fuel ih =>
    intro n ds hpos hlt
    rw [Nat.digits_def' (by norm_num) hpos]
    simp only [Nat.toDigitsCore]
    by_cases h0 : n / 10 = 0
    · simp [h0]
    · simp only [h0, if_false]
      rw [ih (n / 10) _ (Nat.pos_of_ne_zero h0) (by omega)]
      simp

theorem toDigits_pos (n : Nat) (h : 0 < n) :
    Nat.toDigits 10 n = ((Nat.digits 10 n).map Nat.digitChar).reverse := by
  unfold Nat.toDigits
  rw [toDigitsCore_eq (n + 1) n [] h (by omega)]
  simp

theorem toDigits_zero : Nat.toDigits 10 0 = ['0'] := by decide

theorem toDigits_inj (n m : Nat) (h : Nat.toDigits 10 n = Nat.toDigits 10 m) : n = m := by
  have key : ∀ k : Nat, 0 < k → Nat.toDigits 10 k ≠ ['0'] := by
    intro k hk hk0
    rw [toDigits_pos k hk] at hk0
    have h1 : (Nat.digits 10 k).map Nat.digitChar = ['0'] := by
      have := congrArg List.reverse hk0
      simpa using this
    have h2 : Nat.digits 10 k = [0] := by
      apply map_digitChar_inj _ _ (fun x hx => Nat.digits_lt_base (by norm_num) hx) (by simp)
      rw [h1]; rfl
    have h3 := Nat.getLast_digit_ne_zero 10 (Nat.pos_iff_ne_zero.mp hk)
    simp [h2] at h3
  rcases Nat.eq_zero_or_pos n with hn | hn <;> rcases Nat.eq_zero_or_pos m with hm | hm
  · rw [hn, hm]
  · subst hn; rw [toDigits_zero] at h; exact absurd h.symm (key m hm)
  · subst hm; rw [toDigits_zero] at h; exact absurd h (key n hn)
  · rw [toDigits_pos n hn, toDigits_pos m hm] at h
    have h1 := List.reverse_injective h
    have h2 := map_digitChar_inj _ _ (fun x hx => Nat.digits_lt_base (by norm_num) hx)
      (fun x hx => Nat.digits_lt_base (by norm_num) hx) h1
    exact Nat.digits_inj_iff.mp h2

theorem toString_nat_inj (n m : Nat) (h : toString n = toString m) : n = m := by
  apply toDigits_inj
  have h1 : (toString n).data = (toString m).data := by rw [h]
  simpa [toString, Nat.repr, List.asString] using h1

theorem cand_inj (f e : String) (i j : Nat) (h : f ++ toString i ++ e = f ++ toString j ++ e) :
    i = j := by
  apply toString_nat_inj
  have h1 := congrArg String.data h
  simp only [String.data_append, List.append_assoc] at h1
  have h2 := List.append_cancel_left h1
  have h3 := List.append_cancel_right h2
  exact String.ext h3

theorem SD_exists_iff (w : World) (name : String) :
    w.SD_exists name = true ↔ name ∈ w.files.map Prod.fst := by
  simp only [World.SD_exists, List.any_eq_true, beq_iff_eq, List.mem_map]

theorem probe_sound (w : World) (f e : String) (fuel : Nat) :
    ∀ (i : Nat) (name r : String), probe w f e fuel i name = some r → w.SD_exists r = false := by
  induction fuel with
  | zero =>
    intro i name r h
    simp only [probe] at h
    split at h
    · simp at h
    · simp only [Option.some.injEq] at h; subst h; simpa using ‹¬ w.SD_exists name = true›
  | succ fuel ih =>
    intro i name r h
    simp only [probe] at h
    split at h
    · exact ih _ _ _ h
    · simp only [Option.some.injEq] at h; subst h; simpa using ‹¬ w.SD_exists name = true›

theorem probe_fuel_mono (w : World) (f e : String) (fuel : Nat) :
    ∀ (fuel2 i : Nat) (name r : String), probe w f e fuel i name = some r → fuel ≤ fuel2 →
      probe w f e fuel2 i name = some r := by
  induction fuel with
  | zero =>
    intro fuel2 i name r h _
    simp only [probe] at h
    split at h
    · simp at h
    · rename_i hex
      cases fuel2 <;> simp only [probe, hex, if_false] <;> exact h
  | succ fuel ih =>
    intro fuel2 i name r h hle
    obtain ⟨k, rfl⟩ : ∃ k, fuel2 = k + 1 := ⟨fuel2 - 1, by omega⟩
    simp only [probe] at h ⊢
    split at h
    · rename_i hex
      simp only [hex, if_true]
      exact ih k _ _ _ h (by omega)
    · rename_i hex
      simp only [hex, if_false]
      exact h

theorem probe_some_of_free (w : World) (f e : String) (fuel : Nat) :
    ∀ (i : Nat) (name : String),
      (∃ j, j < fuel ∧ w.SD_exists (f ++ toString (i + j) ++ e) = false) →
      ∃ r, probe w f e fuel i name = some r := by
  induction fuel with
  | zero => rintro i name ⟨j, hj, _⟩; omega
  | succ fuel ih =>
    rintro i name ⟨j, hj, hfree⟩
    simp only [probe]
    by_cases hex : w.SD_exists name = true
    · simp only [hex, if_true]
      cases j with
      | zero =>
        have hfree0 : w.SD_exists (f ++ toString i ++ e) = false := by simpa using hfree
        cases fuel <;> simp [probe, hfree0]
      | succ j =>
        apply ih
        refine ⟨j, by omega, ?_⟩
        have : i + 1 + j = i + (j + 1) := by omega
        rw [this]; exact hfree
    · simp [hex]

theorem exists_free_suffix (w : World) (f e : String) :
    ∃ j, j < w.files.length + 1 ∧ w.SD_exists (f ++ toString j ++ e) = false := by
  by_contra hcon
  have hall : ∀ j, j < w.files.length + 1 → (f ++ toString j ++ e) ∈ w.files.map Prod.fst := by
    intro j hj
    rw [← SD_exists_iff]
    by_contra hne
    exact hcon ⟨j, hj, by simpa using hne⟩
  have hnodup : ((List.range (w.files.length + 1)).map (fun j => f ++ toString j ++ e)).Nodup := by
    apply List.Nodup.map _ (List.nodup_range _)
    intro a b hab
    exact cand_inj f e a b hab
  have hsub : (List.range (w.files.length + 1)).map (fun j => f ++ toString j ++ e)
      ⊆ w.files.map Prod.fst := by
    intro x hx
    simp only [List.mem_map, List.mem_range] at hx
    obtain ⟨j, hj, rfl⟩ := hx
    exact hall j hj
  have hlen := (List.subperm_of_subset hnodup hsub).length_le
  simp at hlen

theorem probe_terminates (w : World) (f e : String) (fuel : Nat) (name : String)
    (hfuel : w.files.length < fuel) : ∃ r, probe w f e fuel 0 name = some r := by
  obtain ⟨j, hj, hfree⟩ := exists_free_suffix w f e
  apply probe_some_of_free
  exact ⟨j, by omega, by simpa using hfree⟩

/-! ## Event logger: records and sinks -/

theorem find_appendLine_ne (name line n : String) (h : name ≠ n) :
    ∀ fs : List (String × List String),
      (appendLine name line fs).find? (fun f => f.1 == n) = fs.find? (fun f => f.1 == n) := by
  intro fs
  induction fs with
  | nil => simp [appendLine, h]
  | cons f fs ih =>
    simp only [appendLine]
    by_cases hf : f.1 = name
    · have hn : ¬ f.1 = n := by rw [hf]; exact h
      simp [hf, List.find?_cons, h]
    · simp only [beq_iff_eq, hf, if_false, List.find?_cons]
      rw [ih]

theorem find_appendLine_eq (name line : String) :
    ∀ fs : List (String × List String),
      ((appendLine name line fs).find? (fun f => f.1 == name)).map Prod.snd
        = some (((fs.find? (fun f => f.1 == name)).map Prod.snd).getD [] ++ [line]) := by
  intro fs
  induction fs with
  | nil => simp [appendLine]
  | cons f fs ih =>
    simp only [appendLine]
    by_cases hf : f.1 = name
    · simp [hf, List.find?_cons]
    · have hb : (f.1 == name) = false := by simpa using hf
      simp only [hb, Bool.false_eq_true, if_false, List.find?_cons]
      exact ih

theorem content_eq (w : World) (name : String) :
    w.content name = ((w.files.find? (fun f => f.1 == name)).map Prod.snd).getD [] := by
  unfold World.content
  cases w.files.find? (fun f => f.1 == name) <;> rfl

theorem log_line_eq (level : LOG_LEVEL) (ms : Nat) (msg : String) :
    (match level with
      | .LEVEL_DEBUG => "D:"
      | .LEVEL_INFO => "I:"
      | .LEVEL_WARNING => "W:"
      | .LEVEL_ERROR => "E:") ++ (toString ms ++ ",") ++ msg = record_line level ms msg := by
  cases level <;> simp [record_line, LOG_LEVEL.letter, String.append_assoc]

theorem log_serial (cfg : LoggerConfig) (lg : Logger) (w : World) (msg : String)
    (level : LOG_LEVEL) (hser : cfg.USE_SERIAL_DEBUGGER = true) :
    (Logger.log cfg lg w msg level).serial = w.serial ++ [record_line level w.millis msg] := by
  simp only [Logger.log, hser, if_true, log_line_eq]
  split <;> rfl

theorem log_files_closed (cfg : LoggerConfig) (lg : Logger) (w : World) (msg : String)
    (level : LOG_LEVEL) (h : (cfg.USE_PERIPHERAL_SD_CARD && w.sd_ok) = false) :
    (Logger.log cfg lg w msg level).files = w.files := by
  simp only [Logger.log, h]
  split <;> rfl

theorem log_files_open (cfg : LoggerConfig) (lg : Logger) (w : World) (msg : String)
    (level : LOG_LEVEL) (h : (cfg.USE_PERIPHERAL_SD_CARD && w.sd_ok) = true) :
    (Logger.log cfg lg w msg level).files
      = appendLine lg.file_ext (record_line level w.millis msg) w.files := by
  simp only [Logger.log, h, if_true, log_line_eq]
  split <;> rfl

theorem log_content_ne (cfg : LoggerConfig) (lg : Logger) (w : World) (msg : String)
    (level : LOG_LEVEL) (n : String) (h : lg.file_ext ≠ n) :
    (Logger.log cfg lg w msg level).content n = w.content n := by
  rw [content_eq, content_eq]
  cases hopen : (cfg.USE_PERIPHERAL_SD_CARD && w.sd_ok)
  · rw [log_files_closed cfg lg w msg level hopen]
  · rw [log_files_open cfg lg w msg level hopen, find_appendLine_ne _ _ _ h]

theorem log_all_content_ne (cfg : LoggerConfig) (lg : Logger) (n : String)
    (h : lg.file_ext ≠ n) (calls : List (Nat × String × LOG_LEVEL)) :
    ∀ w : World, (Logger.log_all cfg lg w calls).content n = w.content n := by
  induction calls with
  | nil => intro w; rfl
  | cons call rest ih =>
    intro w
    obtain ⟨t, msg, level⟩ := call
    simp only [Logger.log_all]
    rw [ih, log_content_ne cfg lg _ msg level n h, content_eq, content_eq]

/-- C5: logger uniqueness.  With the SD card compiled in and answering, `init` returns
(for every fuel above the number of files) the same result for every fuel that lets it
return: the flag `true`, the store untouched and a `file_ext` that no file of the store
bears.  Hence for a store holding the log file `first` of an earlier boot the selected
name differs from `first`, and no later session of `log` calls changes that file. -/
theorem init_selects_unused (cfg : LoggerConfig) (lg : Logger) (w : World)
    (hsd : cfg.USE_PERIPHERAL_SD_CARD = true) (hok : w.sd_ok = true) :
    ∃ lg2 : Logger,
      (∀ fuel, w.files.length < fuel → Logger.init cfg lg w fuel = some (lg2, w, true))
      ∧ (∀ fuel r, Logger.init cfg lg w fuel = some r → r = (lg2, w, true))
      ∧ w.SD_exists lg2.file_ext = false
      ∧ (∀ first, w.SD_exists first = true →
          lg2.file_ext ≠ first
          ∧ ∀ calls, (Logger.log_all cfg lg2 w calls).content first = w.content first) := by
  obtain ⟨name, hname⟩ := probe_terminates w cfg.LOGGER_FILENAME cfg.LOGGER_FILE_EXT
    (w.files.length + 1) (cfg.LOGGER_FILENAME ++ cfg.LOGGER_FILE_EXT) (by omega)
  have hfree := probe_sound w _ _ _ _ _ _ hname
  refine ⟨{ lg with file_ext := name }, ?_, ?_, hfree, ?_⟩
  · intro fuel hfuel
    have h := probe_fuel_mono w _ _ _ fuel _ _ _ hname (by omega)
    simp [Logger.init, hsd, hok, h]
  · intro fuel r hr
    simp only [Logger.init, hsd, hok, if_true, Bool.not_true] at hr
    cases hp : probe w cfg.LOGGER_FILENAME cfg.LOGGER_FILE_EXT fuel 0
        (cfg.LOGGER_FILENAME ++ cfg.LOGGER_FILE_EXT) with
    | none => simp [hp] at hr
    | some name2 =>
      have h1 := probe_fuel_mono w _ _ _ (max fuel (w.files.length + 1)) _ _ _ hp (le_max_left _ _)
      have h2 := probe_fuel_mono w _ _ _ (max fuel (w.files.length + 1)) _ _ _ hname
        (le_max_right _ _)
      have h3 : name2 = name := by
        rw [h1] at h2; exact Option.some.inj h2
      simp [hp, h3] at hr
      exact hr.symm
  · intro first hfirst
    have hne : name ≠ first := by
      intro heq
      rw [heq, hfirst] at hfree
      exact Bool.noConfusion hfree
    exact ⟨hne, fun calls => log_all_content_ne cfg _ first hne calls w⟩

/-- Witness of `init_selects_unused`: on a card that holds `log.txt` the scan settles on
`log0.txt`. -/
theorem init_selects_unused_witness :
    Logger.init demoLogger Logger.new secondBootWorld 2
        = some ({ Logger.new with file_ext := "log0.txt" }, secondBootWorld, true)
      ∧ ∃ lg2 : Logger,
        (∀ fuel, secondBootWorld.files.length < fuel →
          Logger.init demoLogger Logger.new secondBootWorld fuel = some (lg2, secondBootWorld, true))
        ∧ (∀ fuel r, Logger.init demoLogger Logger.new secondBootWorld fuel = some r →
            r = (lg2, secondBootWorld, true))
        ∧ secondBootWorld.SD_exists lg2.file_ext = false
        ∧ (∀ first, secondBootWorld.SD_exists first = true →
            lg2.file_ext ≠ first
            ∧ ∀ calls, (Logger.log_all demoLogger lg2 secondBootWorld calls).content first
                = secondBootWorld.content first) :=
  ⟨by decide, init_selects_unused demoLogger Logger.new secondBootWorld rfl rfl⟩

/-- C6: log record format.  With both sinks compiled in and the card answering, for
every message and level `log` appends one and the same line to the console and to the
file `file_ext`: the level letter (D, I, W, E), a colon, the decimal millisecond clock,
a comma and the message unchanged. -/
theorem log_record_format (cfg : LoggerConfig) (lg : Logger) (w : World) (msg : String)
    (level : LOG_LEVEL) (hser : cfg.USE_SERIAL_DEBUGGER = true)
    (hsd : cfg.USE_PERIPHERAL_SD_CARD = true) (hok : w.sd_ok = true) :
    (Logger.log cfg lg w msg level).serial
        = w.serial ++ [level.letter ++ ":" ++ toString w.millis ++ "," ++ msg]
      ∧ (Logger.log cfg lg w msg level).content lg.file_ext
        = w.content lg.file_ext ++ [level.letter ++ ":" ++ toString w.millis ++ "," ++ msg]
      ∧ LOG_LEVEL.letter .LEVEL_DEBUG = "D" ∧ LOG_LEVEL.letter .LEVEL_INFO = "I"
      ∧ LOG_LEVEL.letter .LEVEL_WARNING = "W" ∧ LOG_LEVEL.letter .LEVEL_ERROR = "E" := by
  refine ⟨log_serial cfg lg w msg level hser, ?_, rfl, rfl, rfl, rfl⟩
  have hopen : (cfg.USE_PERIPHERAL_SD_CARD && w.sd_ok) = true := by simp [hsd, hok]
  rw [content_eq, content_eq, log_files_open cfg lg w msg level hopen]
  have h := find_appendLine_eq lg.file_ext (record_line level w.millis msg) w.files
  rw [h]
  rfl

/-- Witness of `log_record_format`: a warning logged at clock 1234 on a card that holds
the target file. -/
theorem log_record_format_witness :
    (Logger.log demoLogger { Logger.new with file_ext := "log.txt" } secondBootWorld "low battery"
        .LEVEL_WARNING).serial = [] ++ ["W:1234,low battery"]
      ∧ (Logger.log demoLogger { Logger.new with file_ext := "log.txt" } secondBootWorld
          "low battery" .LEVEL_WARNING).content "log.txt" = ["I:5,boot", "W:1234,low battery"] := by
  have h := log_record_format demoLogger { Logger.new with file_ext := "log.txt" } secondBootWorld
    "low battery" .LEVEL_WARNING rfl rfl rfl
  exact ⟨h.1, h.2.1⟩

theorem iterate_dmpDataReady (n : Nat) :
    ∀ flag : Bool, Nat.iterate dmpDataReady (n + 1) flag = true := by
  induction n with
  | zero => intro flag; rfl
  | succ n ih => intro flag; exact ih (dmpDataReady flag)

/-- C7: interrupt handoff coalescing.  After `N ≥ 1` calls of `dmpDataReady` the flag is
what one call leaves; the poll that follows returns `true` and clears the flag, and a
second poll with no signal in between returns `false`. -/
theorem signal_coalescing (N : Nat) (flag : Bool) (hN : 1 ≤ N) :
    (poll_and_clear (Nat.iterate dmpDataReady N flag)).1 = true
      ∧ (poll_and_clear (poll_and_clear (Nat.iterate dmpDataReady N flag)).2).1 = false
      ∧ Nat.iterate dmpDataReady N flag = dmpDataReady flag := by
  obtain ⟨n, rfl⟩ : ∃ n, N = n + 1 := ⟨N - 1, by omega⟩
  have h : Nat.iterate dmpDataReady (n + 1) flag = true := iterate_dmpDataReady n flag
  rw [h]
  exact ⟨rfl, rfl, rfl⟩

/-- Witness of `signal_coalescing`: five interrupts before the poll. -/
theorem signal_coalescing_witness :
    (poll_and_clear (Nat.iterate dmpDataReady 5 false)).1 = true
      ∧ (poll_and_clear (poll_and_clear (Nat.iterate dmpDataReady 5 false)).2).1 = false
      ∧ Nat.iterate dmpDataReady 5 false = dmpDataReady false :=
  signal_coalescing 5 false (by decide)

/-- C8: degraded logging.  With both sinks compiled in and a card that does not answer,
`init` returns `false` for every fuel, having logged the code of `ERROR_SD_INIT_FAILED`
at ERROR level on the console and left the store as it was; and every `log` call made
while the card does not answer yields a world (it is a total function) whose console
has the formatted line appended and whose store is unchanged. -/
theorem degraded_logging (cfg : LoggerConfig) (lg : Logger) (w : World)
    (hser : cfg.USE_SERIAL_DEBUGGER = true) (hsd : cfg.USE_PERIPHERAL_SD_CARD = true)
    (hfail : w.sd_ok = false) :
    (∃ w1 : World,
        (∀ fuel, Logger.init cfg lg w fuel = some (lg, w1, false))
        ∧ w1.serial = w.serial ++ [record_line .LEVEL_ERROR w.millis
            (toString (cfg.codeValue .ERROR_SD_INIT_FAILED))]
        ∧ w1.files = w.files)
      ∧ ∀ (lg2 : Logger) (w2 : World) (msg : String) (level : LOG_LEVEL), w2.sd_ok = false →
          (Logger.log cfg lg2 w2 msg level).serial
              = w2.serial ++ [record_line level w2.millis msg]
            ∧ (Logger.log cfg lg2 w2 msg level).files = w2.files := by
  have hclosed : ∀ w2 : World, w2.sd_ok = false →
      (cfg.USE_PERIPHERAL_SD_CARD && w2.sd_ok) = false := by
    intro w2 h2; simp [h2]
  constructor
  · refine ⟨Logger.log_code cfg lg w (cfg.codeValue .ERROR_SD_INIT_FAILED) .LEVEL_ERROR, ?_, ?_, ?_⟩
    · intro fuel
      simp [Logger.init, hsd, hfail]
    · exact log_serial cfg lg w _ _ hser
    · exact log_files_closed cfg lg w _ _ (hclosed w hfail)
  · intro lg2 w2 msg level h2
    exact ⟨log_serial cfg lg2 w2 msg level hser, log_files_closed cfg lg2 w2 msg level (hclosed w2 h2)⟩

/-- Witness of `degraded_logging`: the demo configuration on a card that does not
answer; `init` prints `E:1234,4` and returns `false`. -/
theorem degraded_logging_witness :
    Logger.init demoLogger Logger.new deadCardWorld 0
        = some (Logger.new, { deadCardWorld with serial := ["E:1234,4"] }, false)
      ∧ (∃ w1 : World,
        (∀ fuel, Logger.init demoLogger Logger.new deadCardWorld fuel
          = some (Logger.new, w1, false))
        ∧ w1.serial = deadCardWorld.serial ++ [record_line .LEVEL_ERROR deadCardWorld.millis
            (toString (demoLogger.codeValue .ERROR_SD_INIT_FAILED))]
        ∧ w1.files = deadCardWorld.files)
      ∧ ∀ (lg2 : Logger) (w2 : World) (msg : String) (level : LOG_LEVEL), w2.sd_ok = false →
          (Logger.log demoLogger lg2 w2 msg level).serial
              = w2.serial ++ [record_line level w2.millis msg]
            ∧ (Logger.log demoLogger lg2 w2 msg level).files = w2.files :=
  ⟨by decide, degraded_logging demoLogger Logger.new deadCardWorld rfl rfl rfl⟩

/-! ## Sensor bring-up -/

/-- C9 (as stated) fails: with the MPU6050 connected, the DMP failing to load and a
healthy barometer, `IMU::init` returns `ERROR_DMP_INIT_FAILED` without a single
barometer call, and `seaLevelHpa` is not set. -/
theorem init_dmp_failure_skips_barometer :
    (IMU.new.init demoConfig dmpFailHardware).2.2 = .ERROR_DMP_INIT_FAILED
      ∧ DriverCall.bmp_begin ∉ (IMU.new.init demoConfig dmpFailHardware).2.1
      ∧ DriverCall.bmp_setSampling ∉ (IMU.new.init demoConfig dmpFailHardware).2.1
      ∧ DriverCall.bmp_readPressure ∉ (IMU.new.init demoConfig dmpFailHardware).2.1
      ∧ (IMU.new.init demoConfig dmpFailHardware).1.seaLevelHpa = IMU.new.seaLevelHpa := by
  simp [IMU.init, IMU.init_mpu, demoConfig, dmpFailHardware, IMU.new]

/-- C9 (as the code behaves): when the MPU6050 block is compiled in, the connection test
passes and DMP initialisation fails (`devStatus != 0`), `IMU::init` returns
`ERROR_DMP_INIT_FAILED` right after the offset calls: the driver calls are exactly the
nine MPU calls, so no barometer call is made, `seaLevelHpa` keeps its value and
`dmpReady` is not set. -/
theorem init_dmp_failure (c : Config) (hw : Hardware) (s : IMU)
    (hmpu : c.USE_PERIPHERAL_MPU6050 = true) (hconn : hw.mpu_testConnection = true)
    (hdmp : hw.mpu_dmpInitialize % 256 ≠ 0) :
    (s.init c hw).2.2 = .ERROR_DMP_INIT_FAILED
      ∧ (s.init c hw).2.1 = [.wire_begin, .mpu_start, .delay 100, .mpu_testConnection,
          .mpu_dmpInitialize, .mpu_setXGyroOffset 57, .mpu_setYGyroOffset 2,
          .mpu_setZGyroOffset 1, .mpu_setZAccelOffset 1064]
      ∧ (s.init c hw).1.seaLevelHpa = s.seaLevelHpa
      ∧ (s.init c hw).1.dmpReady = s.dmpReady
      ∧ (s.init c hw).1.devStatus = hw.mpu_dmpInitialize % 256 := by
  simp [IMU.init, IMU.init_mpu, hmpu, hconn, hdmp]

/-- Witness of `init_dmp_failure`: the DMP reports status 1. -/
theorem init_dmp_failure_witness :
    (IMU.new.init demoConfig dmpFailHardware).2.2 = .ERROR_DMP_INIT_FAILED
      ∧ (IMU.new.init demoConfig dmpFailHardware).2.1 = [.wire_begin, .mpu_start, .delay 100,
          .mpu_testConnection, .mpu_dmpInitialize, .mpu_setXGyroOffset 57, .mpu_setYGyroOffset 2,
          .mpu_setZGyroOffset 1, .mpu_setZAccelOffset 1064]
      ∧ (IMU.new.init demoConfig dmpFailHardware).1.seaLevelHpa = IMU.new.seaLevelHpa
      ∧ (IMU.new.init demoConfig dmpFailHardware).1.dmpReady = IMU.new.dmpReady
      ∧ (IMU.new.init demoConfig dmpFailHardware).1.devStatus
          = dmpFailHardware.mpu_dmpInitialize % 256 :=
  init_dmp_failure demoConfig dmpFailHardware IMU.new rfl rfl (by decide)

/-! ## Telemetry codec: the info frame -/

/-- C10 at the failing input `lora_info(2, 1, 5, value)`: the value is stored at index 4,
outside the 4-byte buffer; the frame handed to the transport has the code at index 3,
an unwritten cell at index 2 and no value byte, so the values 7 and 9 give the same
frame. -/
theorem lora_info_drops_value :
    (Logger.lora_info 2 1 5 7).1.out_of_bounds = [(4, 7)]
      ∧ (Logger.lora_info 2 1 5 7).2 = [some 32, some 1, none, some 5]
      ∧ (Logger.lora_info 2 1 5 7).2 = (Logger.lora_info 2 1 5 9).2
      ∧ (Logger.lora_info_code demoLogger.codeValue 2 1 .ERROR_SD_INIT_FAILED 7).1.out_of_bounds
          = [(4, 7)] := by
  decide


/-! ## Altitude phase filter: the three-tick window -/

theorem even_or_bit (x : Nat) (b : Bool) (h : x % 2 = 0) : x ||| b.toNat = x + b.toNat := by
  cases b
  · simp
  · exact even_or_one x h

theorem rising_or_eq (c : Config) (s : IMU) (raw : ℚ) :
    s.rising_or c raw = s.rising_filter ||| (s.rising_bit c raw).toNat := by
  unfold IMU.rising_or IMU.rising_bit
  by_cases h : s.derivative c raw > c.IMU_RISING_CRITERIA <;> simp [h]

theorem falling_or_eq (c : Config) (s : IMU) (raw : ℚ) :
    s.falling_or c raw = s.falling_filter ||| (s.falling_bit c raw).toNat := by
  unfold IMU.falling_or IMU.falling_bit
  by_cases h : s.derivative c raw < c.IMU_FALLING_CRITERIA <;> simp [h]

theorem reg_ok_even (rf : Nat) (b1 b2 : Bool) (h : reg_ok rf b1 b2) : rf % 2 = 0 := by
  unfold reg_ok at h
  cases b1 <;> cases b2 <;> simp at h <;> omega

theorem reg_step (rf : Nat) (b b1 b2 : Bool) (h : reg_ok rf b1 b2) :
    ((rf ||| b.toNat) % 8 = 7 ↔ (b && b1 && b2) = true)
      ∧ reg_ok ((2 * (rf ||| b.toNat)) % 256) b b1 := by
  rw [even_or_bit rf b (reg_ok_even rf b1 b2 h)]
  unfold reg_ok at h ⊢
  cases b <;> cases b1 <;> cases b2 <;> simp at h ⊢ <;> omega

theorem step_window (c : Config) (s : IMU) (raw : ℚ) (b1 b2 f1 f2 : Bool)
    (hr : reg_ok s.rising_filter b1 b2) (hf : reg_ok s.falling_filter f1 f2) :
    (s.bmp_update c raw).pose
        = window_phase [(s.rising_bit c raw, s.falling_bit c raw), (b1, f1), (b2, f2)]
      ∧ reg_ok (s.bmp_update c raw).rising_filter (s.rising_bit c raw) b1
      ∧ reg_ok (s.bmp_update c raw).falling_filter (s.falling_bit c raw) f1 := by
  obtain ⟨hR, hR2⟩ := reg_step s.rising_filter (s.rising_bit c raw) b1 b2 hr
  obtain ⟨hF, hF2⟩ := reg_step s.falling_filter (s.falling_bit c raw) f1 f2 hf
  rw [← rising_or_eq] at hR hR2
  rw [← falling_or_eq] at hF hF2
  refine ⟨?_, ?_, ?_⟩
  · rw [bmp_update_pose]
    simp only [window_phase, hR, hF]
  · rw [bmp_update_rising_filter]; exact hR2
  · rw [bmp_update_falling_filter]; exact hF2

theorem run_window (c : Config) (raws : List ℚ) :
    ∀ (s : IMU) (b1 b2 f1 f2 : Bool), reg_ok s.rising_filter b1 b2 →
      reg_ok s.falling_filter f1 f2 → raws ≠ [] →
      (s.run c raws).pose
        = window_phase (((s.history c raws).reverse ++ [(b1, f1), (b2, f2)]).take 3) := by
  induction raws with
  | nil => intro s b1 b2 f1 f2 _ _ h; exact absurd rfl h
  | cons r rest ih =>
    intro s b1 b2 f1 f2 hr hf _
    obtain ⟨hp, hr2, hf2⟩ := step_window c s r b1 b2 f1 f2 hr hf
    cases rest with
    | nil => simp only [IMU.run, IMU.history]; rw [hp]; rfl
    | cons r2 rest2 =>
      have h := ih (s.bmp_update c r) _ b1 _ f1 hr2 hf2 (by simp)
      simp only [IMU.run] at h ⊢
      rw [h]
      congr 1
      simp only [IMU.history, List.reverse_cons, List.append_assoc, List.singleton_append]
      have hlen : 3 ≤ ((IMU.history c ((s.bmp_update c r).bmp_update c r2) rest2).reverse
          ++ (((s.bmp_update c r).rising_bit c r2, (s.bmp_update c r).falling_bit c r2)
            :: [(s.rising_bit c r, s.falling_bit c r), (b1, f1)])).length := by
        simp
      have e1 := @List.take_append_of_le_length _ _ [(b2, f2)] _ hlen
      simp only [List.append_assoc, List.cons_append, List.nil_append] at e1
      exact e1.symm

theorem window_phase_rising (a b d : Bool × Bool) (h : a.1 = false) :
    window_phase [a, b, d] ≠ .ROCKET_RISING := by
  simp only [window_phase, h, Bool.false_and, Bool.false_eq_true, if_false]
  split <;> simp


theorem reg_ok_zero : reg_ok 0 false false := by
  simp [reg_ok]

theorem run_reg_ok (c : Config) (raws : List ℚ) :
    ∀ (s : IMU), (∃ b1 b2, reg_ok s.rising_filter b1 b2) →
      (∃ f1 f2, reg_ok s.falling_filter f1 f2) →
      (∃ b1 b2, reg_ok (s.run c raws).rising_filter b1 b2)
        ∧ (∃ f1 f2, reg_ok (s.run c raws).falling_filter f1 f2) := by
  induction raws with
  | nil => intro s hr hf; exact ⟨hr, hf⟩
  | cons r rest ih =>
    intro s hr hf
    obtain ⟨b1, b2, hb⟩ := hr
    obtain ⟨f1, f2, hfb⟩ := hf
    obtain ⟨_, hr2, hf2⟩ := step_window c s r b1 b2 f1 f2 hb hfb
    exact ih (s.bmp_update c r) ⟨_, _, hr2⟩ ⟨_, _, hf2⟩

/-- C13: the phase is a function of the last three ticks only.  From a start with both
registers clear, after every tick the pose is the spec's window phase of the
comparisons of this tick and the two before it (ticks before the start counting as
not satisfying): RISING iff the three rising comparisons hold, else FALLING iff the
three falling comparisons hold, else UNKNOWN.  Hence a tick whose rising comparison
fails never reports RISING, whatever was reported before, and two runs whose last
three comparisons agree report the same pose. -/
theorem bmp_update_phase_window (c : Config) (s0 : IMU) (raws : List ℚ)
    (hr : s0.rising_filter = 0) (hf : s0.falling_filter = 0) (hne : raws ≠ []) :
    (s0.run c raws).pose
        = window_phase
            (((s0.history c raws).reverse ++ [(false, false), (false, false)]).take 3)
      ∧ (∀ extra : ℚ, (s0.run c raws).rising_bit c extra = false →
          ((s0.run c raws).bmp_update c extra).pose ≠ .ROCKET_RISING)
      ∧ (∀ (c2 : Config) (s2 : IMU) (raws2 : List ℚ), s2.rising_filter = 0 →
          s2.falling_filter = 0 → raws2 ≠ [] →
          ((s2.history c2 raws2).reverse ++ [(false, false), (false, false)]).take 3
            = ((s0.history c raws).reverse ++ [(false, false), (false, false)]).take 3 →
          (s2.run c2 raws2).pose = (s0.run c raws).pose) := by
  have h0r : reg_ok s0.rising_filter false false := by rw [hr]; exact reg_ok_zero
  have h0f : reg_ok s0.falling_filter false false := by rw [hf]; exact reg_ok_zero
  have hmain := run_window c raws s0 false false false false h0r h0f hne
  refine ⟨hmain, ?_, ?_⟩
  · intro extra hbit
    obtain ⟨⟨b1, b2, hb⟩, ⟨f1, f2, hfb⟩⟩ :=
      run_reg_ok c raws s0 ⟨_, _, h0r⟩ ⟨_, _, h0f⟩
    obtain ⟨hp, _, _⟩ := step_window c (s0.run c raws) extra b1 b2 f1 f2 hb hfb
    rw [hp]
    exact window_phase_rising _ _ _ hbit
  · intro c2 s2 raws2 hr2 hf2 hne2 hsame
    have h2r : reg_ok s2.rising_filter false false := by rw [hr2]; exact reg_ok_zero
    have h2f : reg_ok s2.falling_filter false false := by rw [hf2]; exact reg_ok_zero
    rw [run_window c2 raws2 s2 false false false false h2r h2f hne2, hsame, hmain]

/-- Witness of `bmp_update_phase_window`: a first tick at altitude 0, then the readings
10, 30, 70 under the demo configuration. -/
theorem bmp_update_phase_window_witness :
    (IMU.new.run demoConfig [0, 10, 30, 70]).pose
        = window_phase (((IMU.new.history demoConfig [0, 10, 30, 70]).reverse
            ++ [(false, false), (false, false)]).take 3)
      ∧ (∀ extra : ℚ, (IMU.new.run demoConfig [0, 10, 30, 70]).rising_bit demoConfig extra = false →
          ((IMU.new.run demoConfig [0, 10, 30, 70]).bmp_update demoConfig extra).pose
            ≠ .ROCKET_RISING)
      ∧ (∀ (c2 : Config) (s2 : IMU) (raws2 : List ℚ), s2.rising_filter = 0 →
          s2.falling_filter = 0 → raws2 ≠ [] →
          ((s2.history c2 raws2).reverse ++ [(false, false), (false, false)]).take 3
            = ((IMU.new.history demoConfig [0, 10, 30, 70]).reverse
                ++ [(false, false), (false, false)]).take 3 →
          (s2.run c2 raws2).pose = (IMU.new.run demoConfig [0, 10, 30, 70]).pose) :=
  bmp_update_phase_window demoConfig IMU.new [0, 10, 30, 70] rfl rfl (by simp)


theorem poses_windows (c : Config) (raws : List ℚ) :
    ∀ (s : IMU) (p1 p2 : Bool × Bool), reg_ok s.rising_filter p1.1 p2.1 →
      reg_ok s.falling_filter p1.2 p2.2 →
      s.poses c raws = windows p1 p2 (s.history c raws) := by
  induction raws with
  | nil => intro s p1 p2 _ _; rfl
  | cons r rest ih =>
    intro s p1 p2 hr hf
    obtain ⟨hp, hr2, hf2⟩ := step_window c s r p1.1 p2.1 p1.2 p2.2 hr hf
    simp only [IMU.poses, IMU.history, windows]
    rw [hp, ih (s.bmp_update c r) (s.rising_bit c r, s.falling_bit c r) p1 hr2 hf2]

theorem poses_run_last (c : Config) (raws : List ℚ) :
    ∀ (s : IMU), (s.poses c raws).getLast? = if raws = [] then none else some (s.run c raws).pose := by
  induction raws with
  | nil => intro s; rfl
  | cons r rest ih =>
    intro s
    cases rest with
    | nil => simp [IMU.poses, IMU.run]
    | cons r2 rest2 =>
      have h := ih (s.bmp_update c r)
      simp only [IMU.poses, IMU.run, List.getLast?_cons_cons] at h ⊢
      simpa using h

theorem scenario_history (falling : ℚ) :
    IMU.new.history (scenarioConfig falling) [100, 100, 105, 112, 120]
      = [(false, decide (0 < falling)), (false, decide (0 < falling)),
         (false, decide (25 < falling)), (true, decide (115 / 2 < falling)),
         (true, decide (367 / 4 < falling))] := by
  norm_num [IMU.history, IMU.rising_bit, IMU.falling_bit, IMU.bmp_update, IMU.derivative,
    IMU.altitude_filter, IMU.new, scenarioConfig]

theorem scenario_poses (falling : ℚ) :
    IMU.new.poses (scenarioConfig falling) [100, 100, 105, 112, 120]
      = windows (false, false) (false, false)
          [(false, decide (0 < falling)), (false, decide (0 < falling)),
           (false, decide (25 < falling)), (true, decide (115 / 2 < falling)),
           (true, decide (367 / 4 < falling))] := by
  rw [poses_windows _ _ IMU.new (false, false) (false, false) reg_ok_zero reg_ok_zero,
    scenario_history]


theorem window_phase_eq_rising (a b d : Bool × Bool) :
    window_phase [a, b, d] = .ROCKET_RISING ↔ (a.1 && b.1 && d.1) = true := by
  obtain ⟨a1, a2⟩ := a
  obtain ⟨b1, b2⟩ := b
  obtain ⟨d1, d2⟩ := d
  cases a1 <;> cases a2 <;> cases b1 <;> cases b2 <;> cases d1 <;> cases d2 <;> decide

/-- C11 (as stated) fails: with a falling criterion of -50 m/s the scenario reports
UNKNOWN at every one of its five ticks, so the phase at the end of the sequence is not
RISING. -/
theorem altitude_scenario_stays_unknown :
    IMU.new.poses (scenarioConfig (-50)) [100, 100, 105, 112, 120]
        = [.ROCKET_UNKNOWN, .ROCKET_UNKNOWN, .ROCKET_UNKNOWN, .ROCKET_UNKNOWN, .ROCKET_UNKNOWN]
      ∧ (IMU.new.run (scenarioConfig (-50)) [100, 100, 105, 112, 120]).pose
        ≠ .ROCKET_RISING := by
  have hp : IMU.new.poses (scenarioConfig (-50)) [100, 100, 105, 112, 120]
      = [.ROCKET_UNKNOWN, .ROCKET_UNKNOWN, .ROCKET_UNKNOWN, .ROCKET_UNKNOWN, .ROCKET_UNKNOWN] := by
    rw [scenario_poses]
    norm_num [windows, window_phase]
  refine ⟨hp, ?_⟩
  have hl := poses_run_last (scenarioConfig (-50)) [100, 100, 105, 112, 120] IMU.new
  rw [hp] at hl
  simp only [List.getLast?_cons_cons, List.getLast?_singleton, List.cons_ne_nil, if_false] at hl
  have hu : (IMU.new.run (scenarioConfig (-50)) [100, 100, 105, 112, 120]).pose
      = .ROCKET_UNKNOWN := (Option.some.inj hl).symm
  rw [hu]
  decide

/-- C11 (as the code behaves): the sequence 100, 100, 105, 112, 120 at 20 ms sampling,
smoothing constant 0.9 and rising criterion 50 m/s gives UNKNOWN at the first and at
the second tick, and RISING at no tick: the derivative is above the criterion at the
fourth and fifth tick only (0, 0, 25, 57.5 and 91.75 m/s), one tick short of the
three the window needs.  With a falling criterion that is not positive all five ticks
report UNKNOWN. -/
theorem altitude_scenario (falling : ℚ) :
    (IMU.new.poses (scenarioConfig falling) [100, 100, 105, 112, 120]).take 2
        = [.ROCKET_UNKNOWN, .ROCKET_UNKNOWN]
      ∧ ROCKET_POSE.ROCKET_RISING
        ∉ IMU.new.poses (scenarioConfig falling) [100, 100, 105, 112, 120]
      ∧ (IMU.new.history (scenarioConfig falling) [100, 100, 105, 112, 120]).map Prod.fst
        = [false, false, false, true, true]
      ∧ (falling ≤ 0 →
          IMU.new.poses (scenarioConfig falling) [100, 100, 105, 112, 120]
            = [.ROCKET_UNKNOWN, .ROCKET_UNKNOWN, .ROCKET_UNKNOWN, .ROCKET_UNKNOWN,
               .ROCKET_UNKNOWN]) := by
  refine ⟨?_, ?_, ?_, ?_⟩
  · rw [scenario_poses]
    simp [windows, window_phase]
  · rw [scenario_poses]
    simp only [windows, List.mem_cons, List.mem_singleton, List.not_mem_nil, or_false, not_or]
    refine ⟨?_, ?_, ?_, ?_, ?_⟩ <;>
      (intro h
       have h2 := (window_phase_eq_rising _ _ _).mp h.symm
       simp at h2)
  · rw [scenario_history]; rfl
  · intro hneg
    have h0 : ¬ 0 < falling := by linarith
    have h1 : ¬ 25 < falling := by linarith
    have h2 : ¬ 115 / 2 < falling := by linarith
    have h3 : ¬ 367 / 4 < falling := by linarith
    rw [scenario_poses]
    simp [windows, window_phase, h0, h1, h2, h3]

/-- Witness of `altitude_scenario`: the falling criterion 0. -/
theorem altitude_scenario_witness :
    (IMU.new.poses (scenarioConfig 0) [100, 100, 105, 112, 120]).take 2
        = [.ROCKET_UNKNOWN, .ROCKET_UNKNOWN]
      ∧ ROCKET_POSE.ROCKET_RISING ∉ IMU.new.poses (scenarioConfig 0) [100, 100, 105, 112, 120]
      ∧ IMU.new.poses (scenarioConfig 0) [100, 100, 105, 112, 120]
        = [.ROCKET_UNKNOWN, .ROCKET_UNKNOWN, .ROCKET_UNKNOWN, .ROCKET_UNKNOWN, .ROCKET_UNKNOWN] :=
  ⟨(altitude_scenario 0).1, (altitude_scenario 0).2.1, (altitude_scenario 0).2.2.2 (le_refl 0)⟩


/-! ## Altitude phase filter: the dead zone -/

theorem bool_toNat_testBit (b : Bool) (i : Nat) : b.toNat.testBit i = (decide (i = 0) && b) := by
  cases b
  · simp
  · cases i with
    | zero => simp
    | succ i => simp [Nat.testBit_succ]

theorem and_eq_zero_iff_testBit (x y : Nat) :
    x &&& y = 0 ↔ ∀ i, (x.testBit i && y.testBit i) = false := by
  constructor
  · intro h i
    have := congrArg (fun n => Nat.testBit n i) h
    simpa [Nat.testBit_and] using this
  · intro h
    apply Nat.eq_of_testBit_eq
    intro i
    simp only [Nat.testBit_and, Nat.zero_testBit]
    exact h i

theorem or_bits_disjoint (x y : Nat) (b f : Bool) (hx : x % 2 = 0) (hy : y % 2 = 0)
    (hxy : x &&& y = 0) (hbf : (b && f) = false) :
    (x ||| b.toNat) &&& (y ||| f.toNat) = 0 := by
  rw [and_eq_zero_iff_testBit] at hxy ⊢
  intro i
  have hi := hxy i
  rw [Nat.mod_two_eq_zero_iff_testBit_zero] at hx hy
  simp only [Nat.testBit_or, bool_toNat_testBit]
  cases i with
  | zero =>
    rw [hx, hy]
    simpa using hbf
  | succ i =>
    simpa using hi

theorem shift_disjoint (x y : Nat) (hxy : x &&& y = 0) :
    ((x <<< 1) % 256) &&& ((y <<< 1) % 256) = 0 := by
  rw [and_eq_zero_iff_testBit] at hxy ⊢
  intro i
  have e : (256 : Nat) = 2 ^ 8 := by norm_num
  rw [e]
  simp only [Nat.testBit_mod_two_pow, Nat.testBit_shiftLeft]
  by_cases h1 : 1 ≤ i
  · have hi := hxy (i - 1)
    by_cases h8 : i < 8 <;> simp [h1, h8]
    by_cases hx : x.testBit (i - 1) = true
    · rw [hx] at hi; simp at hi; intro _; exact hi
    · intro hx2; exact absurd hx2 hx
  · simp [h1]

theorem bits_exclusive (c : Config) (s : IMU) (raw : ℚ)
    (hdz : c.IMU_FALLING_CRITERIA ≤ c.IMU_RISING_CRITERIA) :
    (s.rising_bit c raw && s.falling_bit c raw) = false := by
  unfold IMU.rising_bit IMU.falling_bit
  by_cases h1 : s.derivative c raw > c.IMU_RISING_CRITERIA
  · have h2 : ¬ s.derivative c raw < c.IMU_FALLING_CRITERIA := by
      intro h2; linarith
    simp [h2]
  · simp [h1]

theorem dead_zone_step (c : Config) (s : IMU) (raw : ℚ)
    (hdz : c.IMU_FALLING_CRITERIA ≤ c.IMU_RISING_CRITERIA)
    (hx : s.rising_filter % 2 = 0) (hy : s.falling_filter % 2 = 0)
    (hxy : s.rising_filter &&& s.falling_filter = 0) :
    s.rising_or c raw &&& s.falling_or c raw = 0
      ∧ (s.bmp_update c raw).rising_filter % 2 = 0
      ∧ (s.bmp_update c raw).falling_filter % 2 = 0
      ∧ (s.bmp_update c raw).rising_filter &&& (s.bmp_update c raw).falling_filter = 0 := by
  have hor : s.rising_or c raw &&& s.falling_or c raw = 0 := by
    rw [rising_or_eq, falling_or_eq]
    exact or_bits_disjoint _ _ _ _ hx hy hxy (bits_exclusive c s raw hdz)
  refine ⟨hor, ?_, ?_, ?_⟩
  · rw [bmp_update_rising_filter]; omega
  · rw [bmp_update_falling_filter]; omega
  · rw [bmp_update_rising_filter, bmp_update_falling_filter, ← shl_one, ← shl_one]
    exact shift_disjoint _ _ hor

theorem dead_zone_run (c : Config) (raws : List ℚ)
    (hdz : c.IMU_FALLING_CRITERIA ≤ c.IMU_RISING_CRITERIA) :
    ∀ s : IMU, s.rising_filter % 2 = 0 → s.falling_filter % 2 = 0 →
      s.rising_filter &&& s.falling_filter = 0 →
      (s.run c raws).rising_filter % 2 = 0 ∧ (s.run c raws).falling_filter % 2 = 0
        ∧ (s.run c raws).rising_filter &&& (s.run c raws).falling_filter = 0 := by
  induction raws with
  | nil => intro s hx hy hxy; exact ⟨hx, hy, hxy⟩
  | cons r rest ih =>
    intro s hx hy hxy
    obtain ⟨_, h1, h2, h3⟩ := dead_zone_step c s r hdz hx hy hxy
    exact ih (s.bmp_update c r) h1 h2 h3

/-- C14: dead-zone exclusion.  When the falling criterion is not above the rising one,
no tick sets both comparison bits; hence in every state reached from a start with both
registers clear the two registers share no bit, before and after the current bits
are OR-ed in, and the two windows are never confirmed in the same tick. -/
theorem dead_zone_exclusion (c : Config) (s0 : IMU) (raws : List ℚ)
    (hdz : c.IMU_FALLING_CRITERIA ≤ c.IMU_RISING_CRITERIA)
    (hr : s0.rising_filter = 0) (hf : s0.falling_filter = 0) :
    (∀ (s : IMU) (raw : ℚ),
        ¬ (s.derivative c raw > c.IMU_RISING_CRITERIA
            ∧ s.derivative c raw < c.IMU_FALLING_CRITERIA))
      ∧ (s0.run c raws).rising_filter &&& (s0.run c raws).falling_filter = 0
      ∧ ∀ raw : ℚ,
          (s0.run c raws).rising_or c raw &&& (s0.run c raws).falling_or c raw = 0
            ∧ ¬ ((s0.run c raws).rising_or c raw &&& 0b0111 = 0b0111
                ∧ (s0.run c raws).falling_or c raw &&& 0b0111 = 0b0111) := by
  obtain ⟨hx, hy, hxy⟩ := dead_zone_run c raws hdz s0 (by rw [hr]) (by rw [hf])
    (by rw [hr, hf]; rfl)
  refine ⟨?_, hxy, ?_⟩
  · rintro s raw ⟨h1, h2⟩
    linarith
  · intro raw
    obtain ⟨hor, _, _, _⟩ := dead_zone_step c (s0.run c raws) raw hdz hx hy hxy
    refine ⟨hor, ?_⟩
    rintro ⟨h1, h2⟩
    rw [and_seven] at h1 h2
    have hbit := (and_eq_zero_iff_testBit _ _).mp hor 0
    have t1 : ((s0.run c raws).rising_or c raw).testBit 0 = true := by
      rw [← Nat.mod_two_eq_one_iff_testBit_zero]; omega
    have t2 : ((s0.run c raws).falling_or c raw).testBit 0 = true := by
      rw [← Nat.mod_two_eq_one_iff_testBit_zero]; omega
    rw [t1, t2] at hbit
    exact Bool.noConfusion hbit

/-- Witness of `dead_zone_exclusion`: the demo configuration (criteria -50 and +50) on
the readings 0, 10, 30, 70. -/
theorem dead_zone_exclusion_witness :
    (∀ (s : IMU) (raw : ℚ),
        ¬ (s.derivative demoConfig raw > demoConfig.IMU_RISING_CRITERIA
            ∧ s.derivative demoConfig raw < demoConfig.IMU_FALLING_CRITERIA))
      ∧ (IMU.new.run demoConfig [0, 10, 30, 70]).rising_filter
          &&& (IMU.new.run demoConfig [0, 10, 30, 70]).falling_filter = 0
      ∧ ∀ raw : ℚ,
          (IMU.new.run demoConfig [0, 10, 30, 70]).rising_or demoConfig raw
              &&& (IMU.new.run demoConfig [0, 10, 30, 70]).falling_or demoConfig raw = 0
            ∧ ¬ ((IMU.new.run demoConfig [0, 10, 30, 70]).rising_or demoConfig raw &&& 0b0111
                  = 0b0111
                ∧ (IMU.new.run demoConfig [0, 10, 30, 70]).falling_or demoConfig raw &&& 0b0111
                  = 0b0111) :=
  dead_zone_exclusion demoConfig IMU.new [0, 10, 30, 70] (by norm_num [demoConfig]) rfl rfl


/-! ## Altitude phase filter: first tick and standstill -/

theorem at_rest_filter (c : Config) (s : IMU) (v : ℚ) (h : s.at_rest v) :
    (s.altitude_filter c v).2 = v ∧ (s.altitude_filter c v).1.decay = some v := by
  have hv : c.IMU_ALTITUDE_SMOOTHING_CONSTANT * v
      + (1 - c.IMU_ALTITUDE_SMOOTHING_CONSTANT) * v = v := by ring
  rcases h.1 with hd | hd <;>
    simp [IMU.altitude_filter, hd, hv]

theorem at_rest_derivative (c : Config) (s : IMU) (v : ℚ) (h : s.at_rest v) :
    s.derivative c v = 0 := by
  have hf := (at_rest_filter c s v h).1
  unfold IMU.derivative
  simp only [hf]
  rcases h.2.1 with hl | hl <;> simp [hl]

theorem at_rest_step (c : Config) (s : IMU) (v : ℚ) (h : s.at_rest v)
    (hrise : 0 ≤ c.IMU_RISING_CRITERIA) (hfall : c.IMU_FALLING_CRITERIA ≤ 0) :
    s.rising_bit c v = false ∧ s.falling_bit c v = false
      ∧ (s.bmp_update c v).pose = .ROCKET_UNKNOWN
      ∧ (s.bmp_update c v).altitude = v
      ∧ (s.bmp_update c v).at_rest v := by
  have hd := at_rest_derivative c s v h
  have hb1 : s.rising_bit c v = false := by
    unfold IMU.rising_bit; rw [hd]; simpa using hrise
  have hb2 : s.falling_bit c v = false := by
    unfold IMU.falling_bit; rw [hd]; simpa using hfall
  have hro : s.rising_or c v = 0 := by
    rw [rising_or_eq, hb1, h.2.2.1]; rfl
  have hfo : s.falling_or c v = 0 := by
    rw [falling_or_eq, hb2, h.2.2.2]; rfl
  obtain ⟨hf1, hf2⟩ := at_rest_filter c s v h
  refine ⟨hb1, hb2, ?_, ?_, ?_⟩
  · rw [bmp_update_pose, hro, hfo]; rfl
  · simp only [IMU.bmp_update]; exact hf1
  · refine ⟨Or.inr ?_, Or.inr ?_, ?_, ?_⟩
    · simp only [IMU.bmp_update]; exact hf2
    · simp only [IMU.bmp_update]; rw [hf1]
    · rw [bmp_update_rising_filter, hro]
    · rw [bmp_update_falling_filter, hfo]

theorem fresh_at_rest (s : IMU) (v : ℚ) (h : s.fresh) : s.at_rest v :=
  ⟨Or.inl h.1, Or.inl h.2.1, h.2.2.1, h.2.2.2⟩

theorem at_rest_run (c : Config) (v : ℚ) (hrise : 0 ≤ c.IMU_RISING_CRITERIA)
    (hfall : c.IMU_FALLING_CRITERIA ≤ 0) (n : Nat) :
    ∀ s : IMU, s.at_rest v → (s.run c (List.replicate n v)).at_rest v := by
  induction n with
  | zero => intro s h; exact h
  | succ n ih =>
    intro s h
    simp only [List.replicate_succ, IMU.run]
    exact ih _ (at_rest_step c s v h hrise hfall).2.2.2.2

/-- C15: first tick.  On the first call of `bmp_update` (statics not yet initialised,
registers clear, non-zero sampling period) the derivative is exactly zero for every
raw altitude, because `lastAltitude` is seeded with the first filtered altitude; with
a rising criterion that is not negative and a falling criterion that is not positive
neither comparison bit is set and the pose after the tick is UNKNOWN. -/
theorem bmp_update_first_tick (c : Config) (s : IMU) (raw : ℚ) (hfresh : s.fresh)
    (_hperiod : c.IMU_BMP_SAMPLING_PERIOD ≠ 0)
    (hrise : 0 ≤ c.IMU_RISING_CRITERIA) (hfall : c.IMU_FALLING_CRITERIA ≤ 0) :
    s.derivative c raw = 0
      ∧ (s.bmp_update c raw).lastAltitude = some (s.altitude_filter c raw).2
      ∧ s.rising_or c raw = 0 ∧ s.falling_or c raw = 0
      ∧ (s.bmp_update c raw).pose = .ROCKET_UNKNOWN := by
  have h := fresh_at_rest s raw hfresh
  obtain ⟨hb1, hb2, hp, _, _⟩ := at_rest_step c s raw h hrise hfall
  refine ⟨at_rest_derivative c s raw h, ?_, ?_, ?_, hp⟩
  · simp only [IMU.bmp_update]
  · rw [rising_or_eq, hb1, hfresh.2.2.1]; rfl
  · rw [falling_or_eq, hb2, hfresh.2.2.2]; rfl

/-- Witness of `bmp_update_first_tick`: the first reading 100 under the demo
configuration. -/
theorem bmp_update_first_tick_witness :
    IMU.new.derivative demoConfig 100 = 0
      ∧ (IMU.new.bmp_update demoConfig 100).lastAltitude
        = some (IMU.new.altitude_filter demoConfig 100).2
      ∧ IMU.new.rising_or demoConfig 100 = 0 ∧ IMU.new.falling_or demoConfig 100 = 0
      ∧ (IMU.new.bmp_update demoConfig 100).pose = .ROCKET_UNKNOWN :=
  bmp_update_first_tick demoConfig IMU.new 100 ⟨rfl, rfl, rfl, rfl⟩
    (by norm_num [demoConfig]) (by norm_num [demoConfig]) (by norm_num [demoConfig])

/-- C17: a stationary vehicle is never classified as moving.  From a fresh filter, with
a non-zero sampling period and criteria `falling ≤ 0 ≤ rising`, if every raw sample
equals `v` then at every tick (the one after any number `n` of earlier ticks) the
filtered altitude is `v`, the derivative is 0 and the pose is UNKNOWN, for every
smoothing constant. -/
theorem stationary_unknown (c : Config) (s0 : IMU) (v : ℚ) (n : Nat) (hfresh : s0.fresh)
    (_hperiod : c.IMU_BMP_SAMPLING_PERIOD ≠ 0)
    (hrise : 0 ≤ c.IMU_RISING_CRITERIA) (hfall : c.IMU_FALLING_CRITERIA ≤ 0) :
    ((s0.run c (List.replicate n v)).altitude_filter c v).2 = v
      ∧ (s0.run c (List.replicate n v)).derivative c v = 0
      ∧ (s0.run c (List.replicate (n + 1) v)).altitude = v
      ∧ (s0.run c (List.replicate (n + 1) v)).pose = .ROCKET_UNKNOWN := by
  have h := at_rest_run c v hrise hfall n s0 (fresh_at_rest s0 v hfresh)
  obtain ⟨_, _, hp, ha, _⟩ := at_rest_step c _ v h hrise hfall
  have e : s0.run c (List.replicate (n + 1) v)
      = (s0.run c (List.replicate n v)).bmp_update c v := by
    rw [List.replicate_succ', run_append]; rfl
  rw [e]
  exact ⟨(at_rest_filter c _ v h).1, at_rest_derivative c _ v h, ha, hp⟩

/-- Witness of `stationary_unknown`: the fifth tick at a constant altitude of 100 under
the demo configuration. -/
theorem stationary_unknown_witness :
    ((IMU.new.run demoConfig (List.replicate 4 100)).altitude_filter demoConfig 100).2 = 100
      ∧ (IMU.new.run demoConfig (List.replicate 4 100)).derivative demoConfig 100 = 0
      ∧ (IMU.new.run demoConfig (List.replicate (4 + 1) 100)).altitude = 100
      ∧ (IMU.new.run demoConfig (List.replicate (4 + 1) 100)).pose = .ROCKET_UNKNOWN :=
  stationary_unknown demoConfig IMU.new 100 4 ⟨rfl, rfl, rfl, rfl⟩
    (by norm_num [demoConfig]) (by norm_num [demoConfig]) (by norm_num [demoConfig])


/-! ## Telemetry codec: the id field -/

theorem shl12_or_eq_add (mode ts : Nat) (hts : ts < 4096) :
    (mode <<< 12) ||| ts = mode * 4096 + ts := by
  have h := Nat.mul_add_lt_is_or (i := 12) (b := ts) (by simpa using hts) mode
  rw [Nat.shiftLeft_eq]
  have e : (2 : Nat) ^ 12 = 4096 := by norm_num
  rw [e] at h ⊢
  rw [Nat.mul_comm mode 4096]
  exact h.symm

theorem lora_id_eq (mode ts : Nat) (hm : mode < 16) (hts : ts < 4096) :
    ((mode <<< 12) ||| ts) % 65536 = mode * 4096 + ts := by
  rw [shl12_or_eq_add mode ts hts]
  exact Nat.mod_eq_of_lt (by omega)

/-- C16: id packing on in-range inputs.  For every mode in 0..15 and every timestamp
below 4096 both `lora_send` overloads store `id = mode * 4096 + ts` (a 16-bit value), so
`id >> 12 = mode` and `id & 0xFFF = ts`; the id bytes of both frames are those of this
value, and two in-range inputs with the same id have the same mode and timestamp. -/
theorem lora_id_packing (lg : Logger) (mode ts bits : Nat) (v1 v2 v3 : Int)
    (hm : mode < 16) (hts : ts < 4096) :
    (lg.lora_send mode ts v1 v2 v3).1.packet.id = mode * 4096 + ts
      ∧ mode * 4096 + ts < 65536
      ∧ (lg.lora_send mode ts v1 v2 v3).1.packet.id >>> 12 = mode
      ∧ (lg.lora_send mode ts v1 v2 v3).1.packet.id &&& 0xFFF = ts
      ∧ (lg.lora_send mode ts v1 v2 v3).2.take 2 = bytes16 (mode * 4096 + ts)
      ∧ (Logger.lora_send_float mode ts bits).take 2 = bytes16 (mode * 4096 + ts)
      ∧ ∀ mode2 ts2 : Nat, mode2 < 16 → ts2 < 4096 →
          (lg.lora_send mode2 ts2 v1 v2 v3).1.packet.id
            = (lg.lora_send mode ts v1 v2 v3).1.packet.id →
          mode2 = mode ∧ ts2 = ts := by
  have hid : (lg.lora_send mode ts v1 v2 v3).1.packet.id = mode * 4096 + ts := by
    simp only [Logger.lora_send]
    exact lora_id_eq mode ts hm hts
  have hts16 : ts < 65536 := by omega
  refine ⟨hid, by omega, ?_, ?_, ?_, ?_, ?_⟩
  · have h := id_shr12 mode ts hm hts16
    simp only [Logger.lora_send]
    rw [h, Nat.shiftRight_eq_div_pow, Nat.div_eq_of_lt (by simpa using hts), Nat.or_zero]
  · have h := id_and_fff mode ts hm hts16
    simp only [Logger.lora_send]
    rw [h, and_fff_eq_mod, Nat.mod_eq_of_lt hts]
  · rw [lora_send_frame, lora_id_eq mode ts hm hts]
    rfl
  · rw [lora_send_float_frame, lora_id_eq mode ts hm hts]
    rfl
  · intro mode2 ts2 hm2 hts2 hsame
    have hid2 : (lg.lora_send mode2 ts2 v1 v2 v3).1.packet.id = mode2 * 4096 + ts2 := by
      simp only [Logger.lora_send]
      exact lora_id_eq mode2 ts2 hm2 hts2
    rw [hid, hid2] at hsame
    omega

/-- Witness of `lora_id_packing`: mode 2 and timestamp 1 give the id 8193. -/
theorem lora_id_packing_witness :
    (Logger.new.lora_send 2 1 1 (-1) 0).1.packet.id = 8193
      ∧ (Logger.new.lora_send 2 1 1 (-1) 0).1.packet.id >>> 12 = 2
      ∧ (Logger.new.lora_send 2 1 1 (-1) 0).1.packet.id &&& 0xFFF = 1 :=
  ⟨(lora_id_packing Logger.new 2 1 0 1 (-1) 0 (by decide) (by decide)).1,
   (lora_id_packing Logger.new 2 1 0 1 (-1) 0 (by decide) (by decide)).2.2.1,
   (lora_id_packing Logger.new 2 1 0 1 (-1) 0 (by decide) (by decide)).2.2.2.1⟩


/-! ## Motion processor polling -/

/-- C18: the timestamp stays in the 12-bit field.  Whenever `imu_isr_update` returns
`true` the recorded `mpu_last_update_time` is the millisecond clock modulo 4096 (so
below 4096) and `imu_update_flag` is `0xFF`; it returns `false` exactly when the DMP is
not ready or no FIFO packet is available, and then `mpu_last_update_time`,
`imu_update_flag` and `pose` are left as they were. -/
theorem imu_isr_update_timestamp (s : IMU) (packet : Option (List Nat)) (w : World) :
    ((s.imu_isr_update packet w).2 = true →
        (s.imu_isr_update packet w).1.mpu_last_update_time = w.millis % 4096
          ∧ (s.imu_isr_update packet w).1.mpu_last_update_time < 4096
          ∧ (s.imu_isr_update packet w).1.imu_update_flag = 0xFF)
      ∧ ((s.imu_isr_update packet w).2 = false →
          (s.imu_isr_update packet w).1.mpu_last_update_time = s.mpu_last_update_time
            ∧ (s.imu_isr_update packet w).1.imu_update_flag = s.imu_update_flag
            ∧ (s.imu_isr_update packet w).1.pose = s.pose)
      ∧ ((s.imu_isr_update packet w).2 = false ↔ (s.dmpReady = false ∨ packet = none)) := by
  unfold IMU.imu_isr_update
  cases hd : s.dmpReady <;> cases packet <;> simp [and_fff_eq_mod]
  exact Nat.mod_lt _ (by norm_num)

/-- Witness of `imu_isr_update_timestamp`: a ready DMP with a packet at clock 5000
records the timestamp 904; without a packet nothing is recorded. -/
theorem imu_isr_update_timestamp_witness :
    (({ IMU.new with dmpReady := true }.imu_isr_update (some [0, 1])
          lateWorld).1.mpu_last_update_time = 904
      ∧ ({ IMU.new with dmpReady := true }.imu_isr_update (some [0, 1])
          lateWorld).1.imu_update_flag = 0xFF)
      ∧ ({ IMU.new with dmpReady := true }.imu_isr_update none lateWorld).1.imu_update_flag
        = IMU.new.imu_update_flag :=
  ⟨⟨((imu_isr_update_timestamp { IMU.new with dmpReady := true } (some [0, 1])
        lateWorld).1 rfl).1,
    ((imu_isr_update_timestamp { IMU.new with dmpReady := true } (some [0, 1])
        lateWorld).1 rfl).2.2⟩,
   ((imu_isr_update_timestamp { IMU.new with dmpReady := true } none
        lateWorld).2.1 rfl).2.1⟩


/-! ## Event logger: probe order and termination -/

theorem toDigits_ne_nil (n : Nat) : Nat.toDigits 10 n ≠ [] := by
  rcases Nat.eq_zero_or_pos n with hn | hn
  · subst hn; rw [toDigits_zero]; simp
  · rw [toDigits_pos n hn]
    have h : Nat.digits 10 n ≠ [] := Nat.digits_ne_nil_iff_ne_zero.mpr (Nat.pos_iff_ne_zero.mp hn)
    simpa using h

theorem base_ne_cand (f e : String) (j : Nat) : f ++ e ≠ f ++ toString j ++ e := by
  intro h
  have h1 := congrArg String.data h
  simp only [String.data_append, List.append_assoc] at h1
  have h2 := List.append_cancel_left h1
  have h3 := congrArg List.length h2
  simp only [List.length_append] at h3
  have h4 : (toString j).data ≠ [] := by
    have := toDigits_ne_nil j
    simpa [toString, Nat.repr, List.asString] using this
  have h5 : 0 < (toString j).data.length := List.length_pos.mpr h4
  omega

theorem probe_result (w : World) (f e : String) (fuel : Nat) :
    ∀ (i : Nat) (name r : String), probe w f e fuel i name = some r →
      (r = name ∧ w.SD_exists name = false)
        ∨ (w.SD_exists name = true ∧ ∃ k, i ≤ k ∧ r = f ++ toString k ++ e
            ∧ w.SD_exists (f ++ toString k ++ e) = false
            ∧ ∀ j, i ≤ j → j < k → w.SD_exists (f ++ toString j ++ e) = true) := by
  induction fuel with
  | zero =>
    intro i name r h
    simp only [probe] at h
    split at h
    · simp at h
    · rename_i hex
      left
      exact ⟨(Option.some.inj h).symm, by simpa using hex⟩
  | succ fuel ih =>
    intro i name r h
    simp only [probe] at h
    split at h
    · rename_i hex
      right
      refine ⟨hex, ?_⟩
      rcases ih (i + 1) _ r h with ⟨hr, hfree⟩ | ⟨hused, k, hk, hr, hfree, hbefore⟩
      · exact ⟨i, le_refl i, hr, hfree, fun j h1 h2 => absurd h1 (by omega)⟩
      · refine ⟨k, by omega, hr, hfree, ?_⟩
        intro j h1 h2
        rcases Nat.eq_or_lt_of_le h1 with heq | hlt
        · rw [← heq]; exact hused
        · exact hbefore j hlt h2
    · rename_i hex
      left
      exact ⟨(Option.some.inj h).symm, by simpa using hex⟩

theorem used_suffix_bound (w : World) (f e : String) (k : Nat)
    (hbase : w.SD_exists (f ++ e) = true)
    (hused : ∀ j, j < k → w.SD_exists (f ++ toString j ++ e) = true) :
    k < w.files.length := by
  have hnodup : ((f ++ e) :: (List.range k).map (fun j => f ++ toString j ++ e)).Nodup := by
    rw [List.nodup_cons]
    constructor
    · intro hmem
      simp only [List.mem_map, List.mem_range] at hmem
      obtain ⟨j, _, hj⟩ := hmem
      exact base_ne_cand f e j hj.symm
    · apply List.Nodup.map _ (List.nodup_range _)
      intro a b hab
      exact cand_inj f e a b hab
  have hsub : ((f ++ e) :: (List.range k).map (fun j => f ++ toString j ++ e))
      ⊆ w.files.map Prod.fst := by
    intro x hx
    rw [List.mem_cons] at hx
    rcases hx with rfl | hx
    · exact (SD_exists_iff w _).mp hbase
    · simp only [List.mem_map, List.mem_range] at hx
      obtain ⟨j, hj, rfl⟩ := hx
      exact (SD_exists_iff w _).mp (hused j hj)
  have hlen := (List.subperm_of_subset hnodup hsub).length_le
  simp only [List.length_cons, List.length_map, List.length_range] at hlen
  omega


theorem probe_selected (w : World) (f e : String) :
    ∃ name, (∀ fuel, w.files.length < fuel → probe w f e fuel 0 (f ++ e) = some name)
      ∧ (w.SD_exists (f ++ e) = false → name = f ++ e)
      ∧ (w.SD_exists (f ++ e) = true → ∃ i, i < w.files.length ∧ name = f ++ toString i ++ e
          ∧ w.SD_exists (f ++ toString i ++ e) = false
          ∧ ∀ j, j < i → w.SD_exists (f ++ toString j ++ e) = true) := by
  obtain ⟨name, hname⟩ := probe_terminates w f e (w.files.length + 1) (f ++ e) (by omega)
  refine ⟨name, fun fuel hfuel => probe_fuel_mono w f e _ fuel _ _ _ hname (by omega), ?_, ?_⟩
  · intro hfree
    rcases probe_result w f e _ _ _ _ hname with ⟨hr, _⟩ | ⟨hused, _⟩
    · exact hr
    · rw [hfree] at hused; exact Bool.noConfusion hused
  · intro hbase
    rcases probe_result w f e _ _ _ _ hname with ⟨_, hfree⟩ | ⟨_, k, _, hr, hfree, hbefore⟩
    · rw [hbase] at hfree; exact Bool.noConfusion hfree
    · have hused : ∀ j, j < k → w.SD_exists (f ++ toString j ++ e) = true :=
        fun j hj => hbefore j (Nat.zero_le j) hj
      exact ⟨k, used_suffix_bound w f e k hbase hused, hr, hfree, hused⟩

/-- C12: probe order of the uniqueness scan.  With the SD card compiled in and
answering, `init` returns with the base name (file name plus extension) when that name
is unused; otherwise with the name carrying the decimal suffix `i` for the smallest `i`
whose name is unused: the suffixes 0, 1, 2, ... are tried in increasing order and every
name tried before the selected one exists in the store. -/
theorem init_probe_order (cfg : LoggerConfig) (lg : Logger) (w : World)
    (hsd : cfg.USE_PERIPHERAL_SD_CARD = true) (hok : w.sd_ok = true) :
    ∃ name : String,
      (∀ fuel, w.files.length < fuel →
        Logger.init cfg lg w fuel = some ({ lg with file_ext := name }, w, true))
      ∧ (w.SD_exists (cfg.LOGGER_FILENAME ++ cfg.LOGGER_FILE_EXT) = false →
          name = cfg.LOGGER_FILENAME ++ cfg.LOGGER_FILE_EXT)
      ∧ (w.SD_exists (cfg.LOGGER_FILENAME ++ cfg.LOGGER_FILE_EXT) = true →
          ∃ i : Nat, name = cfg.LOGGER_FILENAME ++ toString i ++ cfg.LOGGER_FILE_EXT
            ∧ w.SD_exists (cfg.LOGGER_FILENAME ++ toString i ++ cfg.LOGGER_FILE_EXT) = false
            ∧ ∀ j, j < i →
                w.SD_exists (cfg.LOGGER_FILENAME ++ toString j ++ cfg.LOGGER_FILE_EXT) = true) := by
  obtain ⟨name, hrun, hbase, hsuffix⟩ := probe_selected w cfg.LOGGER_FILENAME cfg.LOGGER_FILE_EXT
  refine ⟨name, ?_, hbase, ?_⟩
  · intro fuel hfuel
    simp [Logger.init, hsd, hok, hrun fuel hfuel]
  · intro hused
    obtain ⟨i, _, hi, hfree, hbefore⟩ := hsuffix hused
    exact ⟨i, hi, hfree, hbefore⟩

/-- Witness of `init_probe_order`: on a card that holds `log.txt` and `log0.txt` the
scan settles on `log1.txt`. -/
theorem init_probe_order_witness :
    Logger.init demoLogger Logger.new thirdBootWorld 3
        = some ({ Logger.new with file_ext := "log1.txt" }, thirdBootWorld, true)
      ∧ ∃ name : String,
        (∀ fuel, thirdBootWorld.files.length < fuel →
          Logger.init demoLogger Logger.new thirdBootWorld fuel
            = some ({ Logger.new with file_ext := name }, thirdBootWorld, true))
        ∧ (thirdBootWorld.SD_exists (demoLogger.LOGGER_FILENAME ++ demoLogger.LOGGER_FILE_EXT)
            = false → name = demoLogger.LOGGER_FILENAME ++ demoLogger.LOGGER_FILE_EXT)
        ∧ (thirdBootWorld.SD_exists (demoLogger.LOGGER_FILENAME ++ demoLogger.LOGGER_FILE_EXT)
            = true →
            ∃ i : Nat, name = demoLogger.LOGGER_FILENAME ++ toString i ++ demoLogger.LOGGER_FILE_EXT
              ∧ thirdBootWorld.SD_exists
                  (demoLogger.LOGGER_FILENAME ++ toString i ++ demoLogger.LOGGER_FILE_EXT) = false
              ∧ ∀ j, j < i →
                  thirdBootWorld.SD_exists
                    (demoLogger.LOGGER_FILENAME ++ toString j ++ demoLogger.LOGGER_FILE_EXT)
                    = true) :=
  ⟨by decide, init_probe_order demoLogger Logger.new thirdBootWorld rfl rfl⟩

/-- C19: termination of the uniqueness scan.  For every store (a finite list of files)
the probing loop ends within `files.length + 1` iterations, on the base name or on a
suffixed name whose index is below the number of files; and `init` itself returns for
every such fuel, whatever the build switches and the state of the card. -/
theorem scan_terminates (cfg : LoggerConfig) (lg : Logger) (w : World) :
    (∃ name : String,
        (∀ fuel, w.files.length < fuel →
          probe w cfg.LOGGER_FILENAME cfg.LOGGER_FILE_EXT fuel 0
            (cfg.LOGGER_FILENAME ++ cfg.LOGGER_FILE_EXT) = some name)
        ∧ (name = cfg.LOGGER_FILENAME ++ cfg.LOGGER_FILE_EXT
            ∨ ∃ i : Nat, i < w.files.length
                ∧ name = cfg.LOGGER_FILENAME ++ toString i ++ cfg.LOGGER_FILE_EXT))
      ∧ ∃ r : Logger × World × Bool,
          ∀ fuel, w.files.length < fuel → Logger.init cfg lg w fuel = some r := by
  obtain ⟨name, hrun, hbase, hsuffix⟩ := probe_selected w cfg.LOGGER_FILENAME cfg.LOGGER_FILE_EXT
  constructor
  · refine ⟨name, hrun, ?_⟩
    cases hex : w.SD_exists (cfg.LOGGER_FILENAME ++ cfg.LOGGER_FILE_EXT)
    · exact Or.inl (hbase hex)
    · obtain ⟨i, hi, hn, _, _⟩ := hsuffix hex
      exact Or.inr ⟨i, hi, hn⟩
  · cases hsd : cfg.USE_PERIPHERAL_SD_CARD
    · exact ⟨(lg, w, true), fun fuel _ => by simp [Logger.init, hsd]⟩
    · cases hok : w.sd_ok
      · exact ⟨(lg, Logger.log_code cfg lg w (cfg.codeValue .ERROR_SD_INIT_FAILED) .LEVEL_ERROR,
          false), fun fuel _ => by simp [Logger.init, hsd, hok]⟩
      · exact ⟨({ lg with file_ext := name }, w, true), fun fuel hfuel => by
          simp [Logger.init, hsd, hok, hrun fuel hfuel]⟩

/-- Witness of `scan_terminates`: the demo configuration on a card that holds `log.txt`
and `log0.txt`; the scan ends on suffix 1, below the two files of the store. -/
theorem scan_terminates_witness :
    probe thirdBootWorld "log" ".txt" 3 0 "log.txt" = some "log1.txt"
      ∧ (∃ name : String,
        (∀ fuel, thirdBootWorld.files.length < fuel →
          probe thirdBootWorld demoLogger.LOGGER_FILENAME demoLogger.LOGGER_FILE_EXT fuel 0
            (demoLogger.LOGGER_FILENAME ++ demoLogger.LOGGER_FILE_EXT) = some name)
        ∧ (name = demoLogger.LOGGER_FILENAME ++ demoLogger.LOGGER_FILE_EXT
            ∨ ∃ i : Nat, i < thirdBootWorld.files.length
                ∧ name = demoLogger.LOGGER_FILENAME ++ toString i ++ demoLogger.LOGGER_FILE_EXT))
      ∧ ∃ r : Logger × World × Bool,
          ∀ fuel, thirdBootWorld.files.length < fuel →
            Logger.init demoLogger Logger.new thirdBootWorld fuel = some r :=
  ⟨by decide, (scan_terminates demoLogger Logger.new thirdBootWorld).1,
    (scan_terminates demoLogger Logger.new thirdBootWorld).2⟩

end Avionics
